import Mathlib

/-!
# The create operation of chainsaw: retry loop, expectations and outputs

A shallow embedding of `pkg/runner/operations/create/operation.go`.

* Go's `error` is `Option GoError` (`none` is the nil error); errors are
  compared by their content.
* `operations.Outputs` is a Go map; a nil map is `none`, a map is a finite
  partial function from names to bindings.
* Objects and chains are values: `Exec`, `execute` and `tryCreateResource`
  receive `obj` and `bindings` by value, so every attempt starts from the same
  object and the same chain; what `client.Create` and the namespacer write
  through the pointer they are given is the object they return here.
* The collaborators that the operation only calls (template renderer,
  namespacer, check engine, expectation evaluator, output-name validation) are
  the fields of `Collaborators`, functions of the arguments the code passes
  them. The field for `check.Check` is named `CheckMatch`, `Check` being the
  type of a match expression.
* The cluster client is stateful: what it answers in one attempt is a `Tick`.
  `wait.PollUntilContextCancel` (called with `immediate = false`) runs one
  attempt per timer tick that fires before the context is done, so a run that
  returns is a finite list of ticks, cut short by the first attempt without
  error or else followed by the cancellation of the context.
* Every function returns, next to its Go results, the list of collaborator
  calls it made (`Event`), in order. The logger, which only observes, is left out.
-/

namespace Chainsaw

/-! ## Data model -/

/-- A Go error value: its `Error()` text and whether `kerrors.IsNotFound` holds of it. -/
structure GoError where
  msg : String
  notFound : Bool
deriving DecidableEq, Repr

/-- Result of `errors.New`. -/
def errorsNew (msg : String) : GoError := { msg := msg, notFound := false }

/-- Predicate `kerrors.IsNotFound`. -/
def IsNotFound (err : GoError) : Bool := err.notFound

/-- Schema-less values (`any`): what templates, documents and bindings hold. -/
inductive Any where
  | null
  | bool (b : Bool)
  | num (n : Int)
  | str (s : String)
deriving DecidableEq, Repr

/-- A binding wraps a value (`binding.Binding`). -/
abbrev Binding := Any

/-- Constructor `binding.NewBinding`. -/
def NewBinding (v : Any) : Binding := v

/-- The bindings chain: newest registration first. -/
abbrev Bindings := List (String × Binding)

/-- Constructor `binding.NewBindings`: the empty chain. -/
def NewBindings : Bindings := []

/-- Method `Bindings.Register`: a new chain view, the receiver is left as it was. -/
def Register (b : Bindings) (name : String) (v : Binding) : Bindings := (name, v) :: b

/-- Type `unstructured.Unstructured`: type identity, identity fields and content. -/
structure Unstructured where
  gvk : String
  ns : String
  name : String
  content : Any
deriving DecidableEq, Repr

/-- Function `client.ObjectKey`: namespace and name. -/
def ObjectKey (obj : Unstructured) : String × String := (obj.ns, obj.name)

/-- Type `v1alpha1.Check`: a match expression, possibly without a value. -/
structure Check where
  Value : Option Any
deriving DecidableEq, Repr

/-- Type `v1alpha1.Expectation`. -/
structure Expectation where
  Match : Option Check
  Check : Check
deriving DecidableEq, Repr

/-- Type `v1alpha1.Output`: name, optional gating match, value template. -/
structure Output where
  Name : String
  Match : Option Check
  Value : Any
deriving DecidableEq, Repr

/-- Type `operations.Outputs`, a Go map from output name to binding. -/
abbrev Outputs := String → Option Binding

/-- The map literal `operations.Outputs{}`. -/
def Outputs.empty : Outputs := fun _ => none

/-- Map assignment `outputs[k] = v`. -/
def Outputs.set (m : Outputs) (k : String) (v : Binding) : Outputs :=
  fun x => if x = k then some v else m x

/-- Reading a possibly nil map: `outputs[k]`. -/
def lookupOutput (m : Option Outputs) (k : String) : Option Binding :=
  match m with
  | none => none
  | some f => f k

/-- Identity of a cluster client. -/
structure Client where
  id : String
deriving DecidableEq, Repr

/-- Identity of a namespacer; `none` in the operation is the nil namespacer. -/
structure Namespacer where
  id : String
deriving DecidableEq, Repr

/-- Identity of a cleanup recorder (`cleanup.Cleaner`). -/
structure Cleaner where
  id : String
deriving DecidableEq, Repr

/-- The `operation` struct. -/
structure operation where
  client : Client
  base : Unstructured
  namespacer : Option Namespacer
  cleaner : Option Cleaner
  template : Bool
  expect : List Expectation
  outputs : List Output
deriving DecidableEq, Repr

/-- Collaborators the operation calls but does not implement. -/
structure Collaborators where
  /-- Function `mutate.Merge(ctx, obj, bindings, template)`. -/
  Merge : Unstructured → Bindings → Any → Except GoError Unstructured
  /-- Function `internal.ApplyNamespacer(namespacer, &obj)`: the object as left by the call. -/
  ApplyNamespacer : Option Namespacer → Unstructured → Except GoError Unstructured
  /-- Method `output.CheckName()`. -/
  CheckName : Output → Option GoError
  /-- Function `check.Check(ctx, content, nil, match)`: an error, or the mismatch diagnostics. -/
  CheckMatch : Any → Check → Except GoError (List String)
  /-- Function `mutation.Mutate(ctx, nil, mutation.Parse(ctx, value), content, bindings, ...)`. -/
  Mutate : Any → Any → Bindings → Except GoError Any
  /-- Function `check.Expectations(ctx, obj, bindings, expect...)`. -/
  Expectations : Unstructured → Bindings → List Expectation → Bool × Option GoError

/-- What the cluster client answers during one attempt. -/
structure Tick where
  /-- Method `client.Get(ctx, key, &actual)`: `none` when the object was found. -/
  Get : String × String → Option GoError
  /-- Method `client.Create(ctx, &obj)`: the object as left by the call, and the error. -/
  Create : Unstructured → Unstructured × Option GoError

/-- One collaborator call, with its arguments (and, for the client, its answer). -/
inductive Event where
  | merge (obj : Unstructured) (bindings : Bindings)
  | applyNamespacer (obj : Unstructured)
  | get (client : Client) (key : String × String) (err : Option GoError)
  | create (client : Client) (obj : Unstructured) (created : Unstructured) (err : Option GoError)
  | cleaner (obj : Unstructured) (client : Client)
  | expectations (obj : Unstructured) (bindings : Bindings)
  | checkName (output : Output)
  | checkMatch (content : Any) (m : Check)
  | mutate (value : Any) (content : Any) (bindings : Bindings)
deriving DecidableEq, Repr

/-- Go results `(operations.Outputs, error)` together with the calls made. -/
abbrev Result := (Option Outputs × Option GoError) × List Event

/-! ## handleCheck -/

/-- Local variables of the output loop in the deferred function of `handleCheck`. -/
structure LoopVars where
  outputs : Option Outputs
  bindings : Bindings

/-- The gating test `output.Match != nil && output.Match.Value != nil`. -/
def hasMatch (output : Output) : Option Check :=
  match output.Match with
  | none => none
  | some m => if m.Value.isSome then some m else none

/-- The `for _, output := range o.outputs` loop of the deferred function: the
error assigned to `_err` (if any), the loop variables at exit, and the calls. -/
def handleCheck.loop (deps : Collaborators) (obj : Unstructured) :
    List Output → LoopVars → (Option GoError × LoopVars) × List Event
  | [], s => ((none, s), [])
  | output :: rest, s =>
    match deps.CheckName output with
    | some err => ((some err, s), [Event.checkName output])
    | none =>
      let mutateAndBind (pre : List Event) : (Option GoError × LoopVars) × List Event :=
        match deps.Mutate output.Value obj.content s.bindings with
        | .error err =>
          ((some err, s), pre ++ [Event.mutate output.Value obj.content s.bindings])
        | .ok patched =>
          let outputs := (s.outputs.getD Outputs.empty).set output.Name (NewBinding patched)
          let bindings := Register s.bindings ("$" ++ output.Name) (NewBinding patched)
          let r := handleCheck.loop deps obj rest { outputs := some outputs, bindings := bindings }
          (r.1, pre ++ Event.mutate output.Value obj.content s.bindings :: r.2)
      match hasMatch output with
      | some m =>
        match deps.CheckMatch obj.content m with
        | .error err =>
          ((some err, s), [Event.checkName output, Event.checkMatch obj.content m])
        | .ok [] => mutateAndBind [Event.checkName output, Event.checkMatch obj.content m]
        | .ok (_ :: _) =>
          let r := handleCheck.loop deps obj rest s
          (r.1, Event.checkName output :: Event.checkMatch obj.content m :: r.2)
      | none => mutateAndBind [Event.checkName output]

/-- Named results and the `bindings` variable of `handleCheck` when its body returns. -/
structure BodyVars where
  bindings : Bindings
  _err : Option GoError

/-- The body of `handleCheck`: bind `$error`, evaluate the expectations, and
return `nil, err` with the evaluator's error when matched, the create error otherwise. -/
def handleCheck.body (deps : Collaborators) (o : operation) (bindings : Bindings)
    (obj : Unstructured) (err : Option GoError) : BodyVars × List Event :=
  let bindings :=
    match err with
    | none => Register bindings "$error" (NewBinding Any.null)
    | some e => Register bindings "$error" (NewBinding (Any.str e.msg))
  let r := deps.Expectations obj bindings o.expect
  ({ bindings := bindings, _err := if r.1 then r.2 else err }, [Event.expectations obj bindings])

/-- The deferred function of `handleCheck`: outputs are evaluated only when `_err` is nil. -/
def handleCheck.deferred (deps : Collaborators) (o : operation) (obj : Unstructured)
    (v : BodyVars) : Result :=
  match v._err with
  | some e => ((none, some e), [])
  | none =>
    let r := handleCheck.loop deps obj o.outputs { outputs := none, bindings := v.bindings }
    match r.1.1 with
    | some e => ((none, some e), r.2)
    | none => ((r.1.2.outputs, none), r.2)

/-- Method `operation.handleCheck`. -/
def handleCheck (deps : Collaborators) (o : operation) (bindings : Bindings)
    (obj : Unstructured) (err : Option GoError) : Result :=
  let b := handleCheck.body deps o bindings obj err
  let d := handleCheck.deferred deps o obj b.1
  (d.1, b.2 ++ d.2)

/-! ## createResource, tryCreateResource -/

/-- Method `operation.createResource`. -/
def createResource (deps : Collaborators) (o : operation) (bindings : Bindings)
    (obj : Unstructured) (tick : Tick) : Result :=
  let c := tick.Create obj
  let recorded : List Event :=
    if c.2.isNone && o.cleaner.isSome then [Event.cleaner c.1 o.client] else []
  let r := handleCheck deps o bindings c.1 c.2
  (r.1, Event.create o.client obj c.1 c.2 :: (recorded ++ r.2))

/-- Method `operation.tryCreateResource`: one attempt. -/
def tryCreateResource (deps : Collaborators) (o : operation) (bindings : Bindings)
    (obj : Unstructured) (tick : Tick) : Result :=
  let err := tick.Get (ObjectKey obj)
  match err with
  | none =>
    ((none, some (errorsNew "the resource already exists in the cluster")),
      [Event.get o.client (ObjectKey obj) err])
  | some e =>
    if IsNotFound e then
      let r := createResource deps o bindings obj tick
      (r.1, Event.get o.client (ObjectKey obj) err :: r.2)
    else
      ((none, some e), [Event.get o.client (ObjectKey obj) err])

/-! ## execute, Exec -/

/-- Function `wait.PollUntilContextCancel(ctx, interval, false, condition)`:
before each run of the condition the loop waits for the timer or for the
context; `ticks` are the waits won by the timer, and when they are used up the
context is done and its error `ctxErr` is returned. A condition that reports
done, or an error, ends the loop with that error. -/
def PollUntilContextCancel {τ σ : Type} (ctxErr : GoError)
    (condition : τ → σ → (Bool × Option GoError) × σ) : List τ → σ → Option GoError × σ
  | [], s => (some ctxErr, s)
  | t :: ts, s =>
    let r := condition t s
    if r.1.2.isSome || r.1.1 then (r.1.2, r.2)
    else PollUntilContextCancel ctxErr condition ts r.2

/-- Variables of `execute` captured by the polled closure, and the calls made so far. -/
structure ExecVars where
  outputs : Option Outputs
  lastErr : Option GoError
  trace : List Event

/-- The closure polled by `execute`. -/
def execute.condition (deps : Collaborators) (o : operation) (bindings : Bindings)
    (obj : Unstructured) (tick : Tick) (s : ExecVars) : (Bool × Option GoError) × ExecVars :=
  let r := tryCreateResource deps o bindings obj tick
  ((r.1.2.isNone, none), { outputs := r.1.1, lastErr := r.1.2, trace := s.trace ++ r.2 })

/-- Method `operation.execute`. -/
def execute (deps : Collaborators) (o : operation) (ctxErr : GoError) (ticks : List Tick)
    (bindings : Bindings) (obj : Unstructured) : Result :=
  let p := PollUntilContextCancel ctxErr (execute.condition deps o bindings obj) ticks
    { outputs := none, lastErr := none, trace := [] }
  match p.1 with
  | none => ((p.2.outputs, none), p.2.trace)
  | some err =>
    match p.2.lastErr with
    | some lastErr => ((p.2.outputs, some lastErr), p.2.trace)
    | none => ((p.2.outputs, some err), p.2.trace)

/-- Method `operation.Exec`, from the namespacer on. -/
def Exec.namespaced (deps : Collaborators) (o : operation) (ctxErr : GoError)
    (ticks : List Tick) (bindings : Bindings) (obj : Unstructured) : Result :=
  match deps.ApplyNamespacer o.namespacer obj with
  | .error err => ((none, some err), [Event.applyNamespacer obj])
  | .ok namespaced =>
    let r := execute deps o ctxErr ticks bindings namespaced
    (r.1, Event.applyNamespacer obj :: r.2)

/-- Method `operation.Exec`; `bindings = none` is the nil chain. -/
def Exec (deps : Collaborators) (o : operation) (ctxErr : GoError) (ticks : List Tick)
    (bindings : Option Bindings) : Result :=
  let bindings := bindings.getD NewBindings
  let obj := o.base
  if o.template then
    match deps.Merge obj bindings obj.content with
    | .error err => ((none, some err), [Event.merge obj bindings])
    | .ok merged =>
      let r := Exec.namespaced deps o ctxErr ticks bindings merged
      (r.1, Event.merge obj bindings :: r.2)
  else
    Exec.namespaced deps o ctxErr ticks bindings obj

/-! ## Definitions used to state the properties -/

/-- The document handed to the namespacer: the rendered base when the template
flag is set, the base itself otherwise. -/
def Exec.rendered (deps : Collaborators) (o : operation) (bindings : Option Bindings) :
    Except GoError Unstructured :=
  if o.template then deps.Merge o.base (bindings.getD NewBindings) o.base.content
  else .ok o.base

/-- The calls `Exec` makes before the retry loop. -/
def Exec.prelude (o : operation) (bindings : Option Bindings) (merged : Unstructured) :
    List Event :=
  (if o.template then [Event.merge o.base (bindings.getD NewBindings)] else [])
    ++ [Event.applyNamespacer merged]

/-- Whether the gating match of an output is declared and mismatches. -/
def skipped (deps : Collaborators) (obj : Unstructured) (output : Output) : Bool :=
  match hasMatch output with
  | none => false
  | some m =>
    match deps.CheckMatch obj.content m with
    | .ok (_ :: _) => true
    | _ => false

/-- The calls made for one output up to and including its gating check. -/
def gateEvents (obj : Unstructured) (output : Output) : List Event :=
  match hasMatch output with
  | none => [Event.checkName output]
  | some m => [Event.checkName output, Event.checkMatch obj.content m]

/-- Whether the gating check of an output fails with an evaluation error. -/
def gateError (deps : Collaborators) (obj : Unstructured) (output : Output) : Option GoError :=
  match hasMatch output with
  | none => none
  | some m =>
    match deps.CheckMatch obj.content m with
    | .error e => some e
    | .ok _ => none

/-! ### The produced outputs, as the specification words them -/

/-- The chain after registering a list of produced outputs, in order, each
under the name prefixed by a dollar sign. -/
def chainAfter (c0 : Bindings) (acc : List (String × Any)) : Bindings :=
  acc.foldl (fun c p => Register c ("$" ++ p.1) (NewBinding p.2)) c0

/-- One declared output: skipped when its gate mismatches, otherwise rendered
against the chain extended by the outputs produced before it. -/
def producedStep (deps : Collaborators) (obj : Unstructured) (c0 : Bindings)
    (acc : List (String × Any)) (output : Output) : List (String × Any) :=
  if skipped deps obj output then acc
  else
    match deps.Mutate output.Value obj.content (chainAfter c0 acc) with
    | .ok v => acc ++ [(output.Name, v)]
    | .error _ => acc

/-- The outputs produced by a list of declarations, in declaration order, with
their rendered values. -/
def produced (deps : Collaborators) (obj : Unstructured) (c0 : Bindings)
    (outs : List Output) : List (String × Any) :=
  outs.foldl (producedStep deps obj c0) []

/-- The value of the last produced output of a given name. -/
def lastProduced (acc : List (String × Any)) (name : String) : Option Any :=
  acc.reverse.lookup name

/-! ### Kinds of calls and the discipline of the cleanup recorder -/

/-- Calls of expectation and output evaluation. -/
def Event.isEvaluation : Event → Bool
  | .expectations _ _ => true
  | .checkName _ => true
  | .checkMatch _ _ => true
  | .mutate _ _ _ => true
  | _ => false

/-- Calls of the cleanup recorder. -/
def Event.isCleaner : Event → Bool
  | .cleaner _ _ => true
  | _ => false

/-- Create calls that returned no error. -/
def Event.isCreated : Event → Bool
  | .create _ _ _ none => true
  | _ => false

/-- Create calls, whatever they returned. -/
def Event.isCreate : Event → Bool
  | .create _ _ _ _ => true
  | _ => false

/-- Existence queries. -/
def Event.isGet : Event → Bool
  | .get _ _ _ => true
  | _ => false

/-- The second call records the object the first call created, for the same client. -/
def recordsFor (client : Client) (prev ev : Event) : Prop :=
  ∃ obj created, prev = Event.create client obj created none ∧ ev = Event.cleaner created client

/-- Two consecutive calls: a recorder call comes only right after the create
call whose object it records, and (with a recorder configured) a create call
without error is followed at once by the recorder call for its object. -/
def cleanerStep (configured : Bool) (client : Client) (prev ev : Event) : Prop :=
  (ev.isCleaner = true → configured = true ∧ recordsFor client prev ev)
    ∧ (prev.isCreated = true → configured = true → recordsFor client prev ev)

/-- The discipline of the cleanup recorder over a whole trace. -/
def CleanerDiscipline (configured : Bool) (client : Client) (l : List Event) : Prop :=
  List.Chain' (cleanerStep configured client) l
    ∧ (∀ ev ∈ l.head?, ev.isCleaner = false)
    ∧ (∀ ev ∈ l.getLast?, configured = true → ev.isCreated = false)
    ∧ l.countP Event.isCleaner = if configured then l.countP Event.isCreated else 0

/-! ## Concrete scenarios -/

namespace Scenario

/-- Collaborators of the scenarios: names must be non-empty, a match on null
passes and any other mismatches, a string template is a reference into the
bindings, and no expectation ever matches. -/
def deps : Collaborators where
  Merge := fun obj _ _ => .ok obj
  ApplyNamespacer := fun _ obj => .ok obj
  CheckName := fun o => if o.Name = "" then some (errorsNew "invalid name") else none
  CheckMatch := fun _ m => if m.Value = some Any.null then .ok [] else .ok ["mismatch"]
  Mutate := fun v _ b =>
    match v with
    | .str s =>
      match b.lookup s with
      | some x => .ok x
      | none => .error (errorsNew "variable not defined")
    | x => .ok x
  Expectations := fun _ _ _ => (false, none)

/-- The same collaborators, with an expectation that marks any create error as expected. -/
def depsExpectFailure : Collaborators :=
  { deps with
    Expectations := fun _ b _ =>
      match b.lookup "$error" with
      | some (.str _) => (true, none)
      | _ => (false, none) }

/-- The same collaborators, with a namespacer that fails. -/
def depsBadNamespacer : Collaborators :=
  { deps with ApplyNamespacer := fun _ _ => .error (errorsNew "namespace is required") }

/-- The same collaborators, with a renderer that fails. -/
def depsBadTemplate : Collaborators :=
  { deps with Merge := fun _ _ _ => .error (errorsNew "template error") }

def widget : Unstructured := { gvk := "Widget", ns := "default", name := "w1", content := .null }

def notFound : GoError := { msg := "widget w1 not found", notFound := true }

def unavailable : GoError := { msg := "the server is currently unable to handle the request",
                               notFound := false }

def denied : GoError := { msg := "admission webhook denied the request", notFound := false }

def deadline : GoError := errorsNew "context deadline exceeded"

def alreadyExists : GoError := errorsNew "the resource already exists in the cluster"

/-- The object is absent and the create call is accepted. -/
def accepted : Tick := { Get := fun _ => some notFound, Create := fun o => (o, none) }

/-- The object is already in the store. -/
def found : Tick := { Get := fun _ => none, Create := fun o => (o, none) }

/-- The existence query fails. -/
def down : Tick := { Get := fun _ => some unavailable, Create := fun o => (o, none) }

/-- The object is absent and the create call is rejected. -/
def rejected : Tick := { Get := fun _ => some notFound, Create := fun o => (o, some denied) }

/-- An operation on the widget with a cleanup recorder and the given outputs. -/
def op (outputs : List Output) : operation :=
  { client := { id := "cluster" }, base := widget, namespacer := none,
    cleaner := some { id := "cleaner" }, template := false, expect := [], outputs := outputs }

/-- The same operation with the template flag set. -/
def opTemplate (outputs : List Output) : operation := { op outputs with template := true }

end Scenario

/-- Calls of the template renderer on the base document. -/
def Event.isMerge : Event → Bool
  | .merge _ _ => true
  | _ => false

/-- The chain `handleCheck` evaluates against: the chain of the caller extended
by the error binding, null after a create without error and the text of the
create error otherwise. -/
def errorChain (bindings : Bindings) (err : Option GoError) : Bindings :=
  Register bindings "$error"
    (NewBinding (match err with
      | none => Any.null
      | some e => Any.str e.msg))

/-- Calls of output evaluation: name validation, gating check, rendering. -/
def Event.isOutputCall : Event → Bool
  | .checkName _ => true
  | .checkMatch _ _ => true
  | .mutate _ _ _ => true
  | _ => false

/-! ## Lemmas on the retry loop -/

section Loop

variable (deps : Collaborators) (o : operation) (ctxErr : GoError)
  (bindings : Bindings) (obj : Unstructured)

theorem poll_nil (s : ExecVars) :
    PollUntilContextCancel ctxErr (execute.condition deps o bindings obj) [] s
      = (some ctxErr, s) := rfl

theorem poll_cons_ok (t : Tick) (ts : List Tick) (s : ExecVars)
    (h : (tryCreateResource deps o bindings obj t).1.2 = none) :
    PollUntilContextCancel ctxErr (execute.condition deps o bindings obj) (t :: ts) s
      = (none, { outputs := (tryCreateResource deps o bindings obj t).1.1, lastErr := none,
                 trace := s.trace ++ (tryCreateResource deps o bindings obj t).2 }) := by
  simp [PollUntilContextCancel, execute.condition, h]

theorem poll_cons_err (t : Tick) (ts : List Tick) (s : ExecVars) (e : GoError)
    (h : (tryCreateResource deps o bindings obj t).1.2 = some e) :
    PollUntilContextCancel ctxErr (execute.condition deps o bindings obj) (t :: ts) s
      = PollUntilContextCancel ctxErr (execute.condition deps o bindings obj) ts
          { outputs := (tryCreateResource deps o bindings obj t).1.1, lastErr := some e,
            trace := s.trace ++ (tryCreateResource deps o bindings obj t).2 } := by
  simp [PollUntilContextCancel, execute.condition, h]

/-- The calls already made are kept, and what a non-empty run returns does not
depend on the variables it started from. -/
theorem poll_from (ts : List Tick) (s : ExecVars) :
    (PollUntilContextCancel ctxErr (execute.condition deps o bindings obj) ts s).2.trace
        = s.trace ++ (PollUntilContextCancel ctxErr (execute.condition deps o bindings obj) ts
            { outputs := none, lastErr := none, trace := [] }).2.trace
      ∧ (ts ≠ [] →
          (PollUntilContextCancel ctxErr (execute.condition deps o bindings obj) ts s).1
            = (PollUntilContextCancel ctxErr (execute.condition deps o bindings obj) ts
                { outputs := none, lastErr := none, trace := [] }).1
          ∧ (PollUntilContextCancel ctxErr (execute.condition deps o bindings obj) ts s).2.outputs
            = (PollUntilContextCancel ctxErr (execute.condition deps o bindings obj) ts
                { outputs := none, lastErr := none, trace := [] }).2.outputs
          ∧ (PollUntilContextCancel ctxErr (execute.condition deps o bindings obj) ts s).2.lastErr
            = (PollUntilContextCancel ctxErr (execute.condition deps o bindings obj) ts
                { outputs := none, lastErr := none, trace := [] }).2.lastErr) := by
  induction ts generalizing s with
  | nil => simp [PollUntilContextCancel]
  | cons t ts ih =>
    cases h : (tryCreateResource deps o bindings obj t).1.2 with
    | none =>
      simp [poll_cons_ok deps o ctxErr bindings obj t ts _ h]
    | some e =>
      rw [poll_cons_err deps o ctxErr bindings obj t ts s e h,
        poll_cons_err deps o ctxErr bindings obj t ts _ e h]
      have h1 := ih (ExecVars.mk (tryCreateResource deps o bindings obj t).1.1 (some e)
            (s.trace ++ (tryCreateResource deps o bindings obj t).2))
      have h2 := ih (ExecVars.mk (tryCreateResource deps o bindings obj t).1.1 (some e)
            ([] ++ (tryCreateResource deps o bindings obj t).2))
      refine ⟨?_, fun _ => ?_⟩
      · rw [h1.1, h2.1]; simp
      · by_cases hts : ts = []
        · subst hts; simp [PollUntilContextCancel]
        · have a := h1.2 hts
          have b := h2.2 hts
          exact ⟨a.1.trans b.1.symm, a.2.1.trans b.2.1.symm, a.2.2.trans b.2.2.symm⟩

/-- The result of `execute` when the context is done before the first attempt. -/
theorem execute_nil :
    execute deps o ctxErr [] bindings obj = ((none, some ctxErr), []) := rfl

/-- A first attempt without error ends `execute` with that attempt's outputs. -/
theorem execute_cons_ok (t : Tick) (ts : List Tick)
    (h : (tryCreateResource deps o bindings obj t).1.2 = none) :
    execute deps o ctxErr (t :: ts) bindings obj
      = (((tryCreateResource deps o bindings obj t).1.1, none),
          (tryCreateResource deps o bindings obj t).2) := by
  simp [execute, poll_cons_ok deps o ctxErr bindings obj t ts _ h]

/-- A failed attempt that is the last one before cancellation decides the result. -/
theorem execute_single_err (t : Tick) (e : GoError)
    (h : (tryCreateResource deps o bindings obj t).1.2 = some e) :
    execute deps o ctxErr [t] bindings obj
      = (((tryCreateResource deps o bindings obj t).1.1, some e),
          (tryCreateResource deps o bindings obj t).2) := by
  unfold execute
  rw [poll_cons_err deps o ctxErr bindings obj t [] _ e h, poll_nil]
  simp

/-- The calls of `execute` are those accumulated by the polled closure. -/
theorem execute_trace (ts : List Tick) :
    (execute deps o ctxErr ts bindings obj).2
      = (PollUntilContextCancel ctxErr (execute.condition deps o bindings obj) ts
          { outputs := none, lastErr := none, trace := [] }).2.trace := by
  dsimp only [execute]
  split
  · rfl
  · split <;> rfl

/-- The Go results of `execute` depend on the poll result only through its
error and the captured `outputs` and `lastErr`. -/
theorem execute_results_congr (ts : List Tick) (p : Option GoError × ExecVars)
    (h1 : p.1 = (PollUntilContextCancel ctxErr (execute.condition deps o bindings obj) ts
          { outputs := none, lastErr := none, trace := [] }).1)
    (h2 : p.2.outputs = (PollUntilContextCancel ctxErr (execute.condition deps o bindings obj) ts
          { outputs := none, lastErr := none, trace := [] }).2.outputs)
    (h3 : p.2.lastErr = (PollUntilContextCancel ctxErr (execute.condition deps o bindings obj) ts
          { outputs := none, lastErr := none, trace := [] }).2.lastErr) :
    (match p.1 with
      | none => ((p.2.outputs, (none : Option GoError)), p.2.trace)
      | some err =>
        match p.2.lastErr with
        | some lastErr => ((p.2.outputs, some lastErr), p.2.trace)
        | none => ((p.2.outputs, some err), p.2.trace)).1
      = (execute deps o ctxErr ts bindings obj).1 := by
  dsimp only [execute]
  rw [← h1, ← h2, ← h3]
  cases p.1 with
  | none => rfl
  | some err => cases p.2.lastErr <;> rfl

/-- A failed attempt followed by further attempts: the result is that of the rest. -/
theorem execute_cons_err (t : Tick) (ts : List Tick) (e : GoError) (hts : ts ≠ [])
    (h : (tryCreateResource deps o bindings obj t).1.2 = some e) :
    (execute deps o ctxErr (t :: ts) bindings obj).1 = (execute deps o ctxErr ts bindings obj).1
    ∧ (execute deps o ctxErr (t :: ts) bindings obj).2
        = (tryCreateResource deps o bindings obj t).2
            ++ (execute deps o ctxErr ts bindings obj).2 := by
  have hp := poll_from deps o ctxErr bindings obj ts
      (ExecVars.mk (tryCreateResource deps o bindings obj t).1.1 (some e)
        ([] ++ (tryCreateResource deps o bindings obj t).2))
  obtain ⟨htr, hrest⟩ := hp
  obtain ⟨h1, h2, h3⟩ := hrest hts
  refine ⟨?_, ?_⟩
  · have := execute_results_congr deps o ctxErr bindings obj ts _ h1 h2 h3
    rw [← this]
    dsimp only [execute]
    rw [poll_cons_err deps o ctxErr bindings obj t ts _ e h]
  · rw [execute_trace, execute_trace, poll_cons_err deps o ctxErr bindings obj t ts _ e h, htr]
    simp

/-- The calls of `execute` after a failed first attempt, with or without further attempts. -/
theorem execute_cons_err_trace (t : Tick) (ts : List Tick) (e : GoError)
    (h : (tryCreateResource deps o bindings obj t).1.2 = some e) :
    (execute deps o ctxErr (t :: ts) bindings obj).2
        = (tryCreateResource deps o bindings obj t).2
            ++ (execute deps o ctxErr ts bindings obj).2 := by
  by_cases hts : ts = []
  · subst hts
    rw [execute_single_err deps o ctxErr bindings obj t e h, execute_nil]; simp
  · exact (execute_cons_err deps o ctxErr bindings obj t ts e hts h).2

end Loop

/-! ## Lemmas on one attempt -/

section Attempt

variable (deps : Collaborators) (o : operation) (bindings : Bindings) (obj : Unstructured)

/-- The deferred function returns either an error without outputs, or no error. -/
theorem deferred_cases (v : BodyVars) :
    (∃ e, (handleCheck.deferred deps o obj v).1 = (none, some e))
      ∨ (handleCheck.deferred deps o obj v).1.2 = none := by
  unfold handleCheck.deferred
  split
  · exact Or.inl ⟨_, rfl⟩
  · dsimp only
    split
    · exact Or.inl ⟨_, rfl⟩
    · exact Or.inr rfl

/-- An attempt returns either an error without outputs, or no error. -/
theorem tryCreateResource_cases (tick : Tick) :
    (∃ e, (tryCreateResource deps o bindings obj tick).1 = (none, some e))
      ∨ (tryCreateResource deps o bindings obj tick).1.2 = none := by
  unfold tryCreateResource
  dsimp only
  split
  · exact Or.inl ⟨_, rfl⟩
  · split
    · exact deferred_cases deps o _ _
    · exact Or.inl ⟨_, rfl⟩

/-- A failed attempt returns nil outputs. -/
theorem tryCreateResource_err_outputs (tick : Tick)
    (h : (tryCreateResource deps o bindings obj tick).1.2 ≠ none) :
    (tryCreateResource deps o bindings obj tick).1.1 = none := by
  rcases tryCreateResource_cases deps o bindings obj tick with ⟨e, he⟩ | h0
  · rw [he]
  · exact absurd h0 h

/-- When the first attempt without error comes after failed ones, `execute`
returns its outputs and has made the calls of the attempts up to it. -/
theorem execute_first_ok (ctxErr : GoError) (pre : List Tick) (t : Tick) (post : List Tick)
    (hpre : ∀ u ∈ pre, (tryCreateResource deps o bindings obj u).1.2 ≠ none)
    (ht : (tryCreateResource deps o bindings obj t).1.2 = none) :
    execute deps o ctxErr (pre ++ t :: post) bindings obj
      = (((tryCreateResource deps o bindings obj t).1.1, none),
          ((pre ++ [t]).map (fun u => (tryCreateResource deps o bindings obj u).2)).flatten) := by
  induction pre with
  | nil => simp [execute_cons_ok deps o ctxErr bindings obj t post ht]
  | cons u pre ih =>
    have hu := hpre u (List.mem_cons_self _ _)
    obtain ⟨e, he⟩ := Option.ne_none_iff_exists'.mp hu
    have hne : pre ++ t :: post ≠ [] := by simp
    have hc := execute_cons_err deps o ctxErr bindings obj u (pre ++ t :: post) e hne he
    have ih' := ih (fun w hw => hpre w (List.mem_cons_of_mem _ hw))
    apply Prod.ext
    · rw [List.cons_append, hc.1, ih']
    · rw [List.cons_append, hc.2, ih']; simp

/-- When every attempt fails, `execute` returns nil outputs and the error of
the last attempt, or the context's error when there was no attempt. -/
theorem execute_all_fail (ctxErr : GoError) (ticks : List Tick)
    (hall : ∀ u ∈ ticks, (tryCreateResource deps o bindings obj u).1.2 ≠ none) :
    execute deps o ctxErr ticks bindings obj
      = ((none, match ticks.getLast? with
                | none => some ctxErr
                | some t => (tryCreateResource deps o bindings obj t).1.2),
          (ticks.map (fun u => (tryCreateResource deps o bindings obj u).2)).flatten) := by
  induction ticks with
  | nil => rfl
  | cons u ts ih =>
    have hu := hall u (List.mem_cons_self _ _)
    obtain ⟨e, he⟩ := Option.ne_none_iff_exists'.mp hu
    have hout := tryCreateResource_err_outputs deps o bindings obj u hu
    by_cases hts : ts = []
    · subst hts
      rw [execute_single_err deps o ctxErr bindings obj u e he, hout]
      simp [he]
    · have hc := execute_cons_err deps o ctxErr bindings obj u ts e hts he
      have ih' := ih (fun w hw => hall w (List.mem_cons_of_mem _ hw))
      obtain ⟨x, xs, rfl⟩ := List.exists_cons_of_ne_nil hts
      apply Prod.ext
      · rw [hc.1, ih']; simp [List.getLast?_cons_cons]
      · rw [hc.2, ih']; simp

/-- Splitting a run at its first attempt without error. -/
theorem first_ok_split (ticks : List Tick)
    (h : ∃ t ∈ ticks, (tryCreateResource deps o bindings obj t).1.2 = none) :
    ∃ pre t post, ticks = pre ++ t :: post
      ∧ (∀ u ∈ pre, (tryCreateResource deps o bindings obj u).1.2 ≠ none)
      ∧ (tryCreateResource deps o bindings obj t).1.2 = none := by
  induction ticks with
  | nil => simp at h
  | cons u ts ih =>
    by_cases hu : (tryCreateResource deps o bindings obj u).1.2 = none
    · exact ⟨[], u, ts, rfl, by simp, hu⟩
    · obtain ⟨t, htm, ht⟩ := h
      have htm' : t ∈ ts := by
        rcases List.mem_cons.mp htm with rfl | h'
        · exact absurd ht hu
        · exact h'
      obtain ⟨pre, t', post, hsplit, hpre, ht'⟩ := ih ⟨t, htm', ht⟩
      refine ⟨u :: pre, t', post, by simp [hsplit], ?_, ht'⟩
      intro w hw
      rcases List.mem_cons.mp hw with rfl | h'
      · exact hu
      · exact hpre w h'

/-- The error of `execute` is nil exactly when some attempt returned a nil error. -/
theorem execute_err_none_iff (ctxErr : GoError) (ticks : List Tick) :
    (execute deps o ctxErr ticks bindings obj).1.2 = none
      ↔ ∃ t ∈ ticks, (tryCreateResource deps o bindings obj t).1.2 = none := by
  constructor
  · intro h
    by_contra hno
    have hall : ∀ u ∈ ticks, (tryCreateResource deps o bindings obj u).1.2 ≠ none :=
      fun u hu hn => hno ⟨u, hu, hn⟩
    rw [execute_all_fail deps o bindings obj ctxErr ticks hall] at h
    dsimp only at h
    split at h
    · exact absurd h (by simp)
    · rename_i t hlast
      exact hall t (List.mem_of_getLast?_eq_some hlast) h
  · intro h
    obtain ⟨pre, t, post, hsplit, hpre, ht⟩ := first_ok_split deps o bindings obj ticks h
    rw [hsplit, execute_first_ok deps o bindings obj ctxErr pre t post hpre ht]

/-- A non-nil error of `execute` comes with nil outputs. -/
theorem execute_err_outputs (ctxErr : GoError) (ticks : List Tick)
    (h : (execute deps o ctxErr ticks bindings obj).1.2 ≠ none) :
    (execute deps o ctxErr ticks bindings obj).1.1 = none := by
  have hall : ∀ u ∈ ticks, (tryCreateResource deps o bindings obj u).1.2 ≠ none := by
    intro u hu hn
    exact h ((execute_err_none_iff deps o bindings obj ctxErr ticks).mpr ⟨u, hu, hn⟩)
  rw [execute_all_fail deps o bindings obj ctxErr ticks hall]

end Attempt

/-! ## Lemmas on Exec -/

/-- Past rendering and namespacing, `Exec` is `execute` on the namespaced object. -/
theorem Exec_past (deps : Collaborators) (o : operation) (ctxErr : GoError) (ticks : List Tick)
    (bindings : Option Bindings) (merged obj : Unstructured)
    (hm : Exec.rendered deps o bindings = .ok merged)
    (hn : deps.ApplyNamespacer o.namespacer merged = .ok obj) :
    Exec deps o ctxErr ticks bindings
      = ((execute deps o ctxErr ticks (bindings.getD NewBindings) obj).1,
          Exec.prelude o bindings merged
            ++ (execute deps o ctxErr ticks (bindings.getD NewBindings) obj).2) := by
  unfold Exec.rendered at hm
  unfold Exec Exec.prelude
  by_cases ht : o.template = true
  · simp only [ht, if_true] at hm ⊢
    simp [hm, Exec.namespaced, hn]
  · simp only [ht] at hm ⊢
    simp only [Bool.false_eq_true, if_false] at hm ⊢
    cases hm
    simp [Exec.namespaced, hn]

/-! ## Lemmas on the output loop -/

section OutputLoop

variable (deps : Collaborators) (obj : Unstructured)

theorem loop_nil (s : LoopVars) : handleCheck.loop deps obj [] s = ((none, s), []) := by
  simp [handleCheck.loop]

theorem loop_cons_name (output : Output) (rest : List Output) (s : LoopVars) (e : GoError)
    (h : deps.CheckName output = some e) :
    handleCheck.loop deps obj (output :: rest) s = ((some e, s), [Event.checkName output]) := by
  simp [handleCheck.loop, h]

theorem loop_cons_gate (output : Output) (rest : List Output) (s : LoopVars) (e : GoError)
    (hn : deps.CheckName output = none) (h : gateError deps obj output = some e) :
    handleCheck.loop deps obj (output :: rest) s = ((some e, s), gateEvents obj output) := by
  unfold gateError at h
  unfold gateEvents
  cases hm : hasMatch output with
  | none => simp [hm] at h
  | some m =>
    simp only [hm] at h ⊢
    cases hc : deps.CheckMatch obj.content m with
    | error e' =>
      simp only [hc, Option.some.injEq] at h
      subst h
      simp [handleCheck.loop, hn, hm, hc]
    | ok ds => simp [hc] at h

theorem loop_cons_skip (output : Output) (rest : List Output) (s : LoopVars)
    (hn : deps.CheckName output = none) (h : skipped deps obj output = true) :
    handleCheck.loop deps obj (output :: rest) s
      = ((handleCheck.loop deps obj rest s).1,
          gateEvents obj output ++ (handleCheck.loop deps obj rest s).2) := by
  unfold skipped at h
  unfold gateEvents
  cases hm : hasMatch output with
  | none => simp [hm] at h
  | some m =>
    simp only [hm] at h ⊢
    cases hc : deps.CheckMatch obj.content m with
    | error e' => simp [hc] at h
    | ok ds =>
      cases ds with
      | nil => simp [hc] at h
      | cons d ds => simp [handleCheck.loop, hn, hm, hc]

theorem loop_cons_mutate_err (output : Output) (rest : List Output) (s : LoopVars) (e : GoError)
    (hn : deps.CheckName output = none) (hg : gateError deps obj output = none)
    (hs : skipped deps obj output = false)
    (h : deps.Mutate output.Value obj.content s.bindings = .error e) :
    handleCheck.loop deps obj (output :: rest) s
      = ((some e, s),
          gateEvents obj output ++ [Event.mutate output.Value obj.content s.bindings]) := by
  unfold skipped at hs
  unfold gateError at hg
  unfold gateEvents
  cases hm : hasMatch output with
  | none => simp [handleCheck.loop, hn, hm, h]
  | some m =>
    simp only [hm] at hs hg ⊢
    cases hc : deps.CheckMatch obj.content m with
    | error e' => simp [hc] at hg
    | ok ds =>
      cases ds with
      | nil => simp [handleCheck.loop, hn, hm, hc, h]
      | cons d ds => simp [hc] at hs

theorem loop_cons_produce (output : Output) (rest : List Output) (s : LoopVars) (v : Any)
    (hn : deps.CheckName output = none) (hg : gateError deps obj output = none)
    (hs : skipped deps obj output = false)
    (h : deps.Mutate output.Value obj.content s.bindings = .ok v) :
    handleCheck.loop deps obj (output :: rest) s
      = ((handleCheck.loop deps obj rest
            { outputs := some ((s.outputs.getD Outputs.empty).set output.Name (NewBinding v)),
              bindings := Register s.bindings ("$" ++ output.Name) (NewBinding v) }).1,
          gateEvents obj output ++ Event.mutate output.Value obj.content s.bindings ::
            (handleCheck.loop deps obj rest
              { outputs := some ((s.outputs.getD Outputs.empty).set output.Name (NewBinding v)),
                bindings := Register s.bindings ("$" ++ output.Name) (NewBinding v) }).2) := by
  unfold skipped at hs
  unfold gateError at hg
  unfold gateEvents
  cases hm : hasMatch output with
  | none => simp [handleCheck.loop, hn, hm, h]
  | some m =>
    simp only [hm] at hs hg ⊢
    cases hc : deps.CheckMatch obj.content m with
    | error e' => simp [hc] at hg
    | ok ds =>
      cases ds with
      | nil => simp [handleCheck.loop, hn, hm, hc, h]
      | cons d ds => simp [hc] at hs

/-- The loop over a concatenation: an error in the first part ends it, otherwise
the second part is evaluated from the variables the first part left. -/
theorem loop_append (pre rest : List Output) (s : LoopVars) :
    handleCheck.loop deps obj (pre ++ rest) s
      = match (handleCheck.loop deps obj pre s).1.1 with
        | some _ => handleCheck.loop deps obj pre s
        | none =>
          ((handleCheck.loop deps obj rest (handleCheck.loop deps obj pre s).1.2).1,
            (handleCheck.loop deps obj pre s).2
              ++ (handleCheck.loop deps obj rest (handleCheck.loop deps obj pre s).1.2).2) := by
  induction pre generalizing s with
  | nil => simp [loop_nil]
  | cons output pre ih =>
    rw [List.cons_append]
    cases hn : deps.CheckName output with
    | some e => simp [loop_cons_name deps obj output _ s e hn]
    | none =>
      cases hg : gateError deps obj output with
      | some e => simp [loop_cons_gate deps obj output _ s e hn hg]
      | none =>
        cases hs : skipped deps obj output with
        | true =>
          rw [loop_cons_skip deps obj output _ s hn hs, loop_cons_skip deps obj output _ s hn hs,
            ih s]
          dsimp only
          split <;> simp
        | false =>
          cases hmu : deps.Mutate output.Value obj.content s.bindings with
          | error e => simp [loop_cons_mutate_err deps obj output _ s e hn hg hs hmu]
          | ok v =>
            rw [loop_cons_produce deps obj output _ s v hn hg hs hmu,
              loop_cons_produce deps obj output _ s v hn hg hs hmu, ih]
            dsimp only
            split <;> simp

end OutputLoop

/-! ## Lemmas on the produced outputs -/

section Produced

variable (deps : Collaborators) (obj : Unstructured) (c0 : Bindings)

theorem chainAfter_snoc (acc : List (String × Any)) (n : String) (v : Any) :
    chainAfter c0 (acc ++ [(n, v)]) = Register (chainAfter c0 acc) ("$" ++ n) (NewBinding v) := by
  simp [chainAfter, List.foldl_append]

theorem lastProduced_snoc (acc : List (String × Any)) (n : String) (v : Any) (name : String) :
    lastProduced (acc ++ [(n, v)]) name
      = if name = n then some v else lastProduced acc name := by
  unfold lastProduced
  rw [List.reverse_append]
  simp only [List.reverse_cons, List.reverse_nil, List.nil_append, List.singleton_append,
    List.lookup_cons]
  by_cases h : name = n
  · simp [h]
  · have hb : (name == n) = false := by simpa using h
    simp [h, hb]

theorem lookupOutput_set (m : Option Outputs) (n : String) (v : Any) (name : String) :
    lookupOutput (some ((m.getD Outputs.empty).set n (NewBinding v))) name
      = if name = n then some v else lookupOutput m name := by
  unfold lookupOutput Outputs.set NewBinding
  by_cases h : name = n
  · simp [h]
  · cases m <;> simp [h, Outputs.empty]

theorem produced_snoc (outs : List Output) (output : Output) :
    produced deps obj c0 (outs ++ [output])
      = producedStep deps obj c0 (produced deps obj c0 outs) output := by
  simp [produced, List.foldl_append]

/-- Outputs declared under other names do not change the last produced value of a name. -/
theorem lastProduced_foldl_other (post : List Output) (acc : List (String × Any))
    (name : String) (h : ∀ p ∈ post, p.Name ≠ name) :
    lastProduced (post.foldl (producedStep deps obj c0) acc) name = lastProduced acc name := by
  induction post generalizing acc with
  | nil => rfl
  | cons p post ih =>
    rw [List.foldl_cons, ih _ (fun q hq => h q (List.mem_cons_of_mem _ hq))]
    have hp : name ≠ p.Name := fun e => h p (List.mem_cons_self _ _) e.symm
    unfold producedStep
    split
    · rfl
    · split
      · rw [lastProduced_snoc]; simp [hp]
      · rfl

/-- Invariant of a loop that ends without error: its chain and its map are
those of the produced outputs. -/
theorem loop_produced (rest : List Output) (acc : List (String × Any)) (s : LoopVars)
    (hb : s.bindings = chainAfter c0 acc)
    (hm : ∀ name, lookupOutput s.outputs name = lastProduced acc name)
    (hok : (handleCheck.loop deps obj rest s).1.1 = none) :
    (handleCheck.loop deps obj rest s).1.2.bindings
        = chainAfter c0 (rest.foldl (producedStep deps obj c0) acc)
      ∧ ∀ name, lookupOutput (handleCheck.loop deps obj rest s).1.2.outputs name
          = lastProduced (rest.foldl (producedStep deps obj c0) acc) name := by
  induction rest generalizing acc s with
  | nil => simpa [loop_nil] using ⟨hb, hm⟩
  | cons output rest ih =>
    cases hn : deps.CheckName output with
    | some e => simp [loop_cons_name deps obj output _ s e hn] at hok
    | none =>
      cases hg : gateError deps obj output with
      | some e => simp [loop_cons_gate deps obj output _ s e hn hg] at hok
      | none =>
        cases hs : skipped deps obj output with
        | true =>
          rw [loop_cons_skip deps obj output _ s hn hs] at hok ⊢
          have hstep : producedStep deps obj c0 acc output = acc := by simp [producedStep, hs]
          rw [List.foldl_cons, hstep]
          exact ih acc s hb hm hok
        | false =>
          cases hmu : deps.Mutate output.Value obj.content s.bindings with
          | error e => simp [loop_cons_mutate_err deps obj output _ s e hn hg hs hmu] at hok
          | ok v =>
            rw [loop_cons_produce deps obj output _ s v hn hg hs hmu] at hok ⊢
            have hstep : producedStep deps obj c0 acc output = acc ++ [(output.Name, v)] := by
              rw [hb] at hmu
              simp [producedStep, hs, hmu]
            rw [List.foldl_cons, hstep]
            refine ih _ _ ?_ ?_ hok
            · simp [chainAfter_snoc, hb]
            · intro name
              rw [lookupOutput_set, lastProduced_snoc, hm]

/-- In a loop that ends without error, an output that is not skipped is
rendered against the chain the loop had reached, and its call is recorded. -/
theorem loop_head_rendered (output : Output) (post : List Output) (s : LoopVars)
    (hs : skipped deps obj output = false)
    (hok : (handleCheck.loop deps obj (output :: post) s).1.1 = none) :
    ∃ v, deps.Mutate output.Value obj.content s.bindings = .ok v
      ∧ Event.mutate output.Value obj.content s.bindings
          ∈ (handleCheck.loop deps obj (output :: post) s).2 := by
  cases hn : deps.CheckName output with
  | some e => simp [loop_cons_name deps obj output _ s e hn] at hok
  | none =>
    cases hg : gateError deps obj output with
    | some e => simp [loop_cons_gate deps obj output _ s e hn hg] at hok
    | none =>
      cases hmu : deps.Mutate output.Value obj.content s.bindings with
      | error e => simp [loop_cons_mutate_err deps obj output _ s e hn hg hs hmu] at hok
      | ok v =>
        refine ⟨v, rfl, ?_⟩
        rw [loop_cons_produce deps obj output _ s v hn hg hs hmu]
        simp

/-- A loop that ends without error validated the name of every output. -/
theorem loop_ok_checkName (pre : List Output) (output : Output) (post : List Output)
    (s : LoopVars) (hok : (handleCheck.loop deps obj (pre ++ output :: post) s).1.1 = none) :
    deps.CheckName output = none := by
  rw [loop_append] at hok
  split at hok
  · rename_i e he
    rw [he] at hok; exact absurd hok (by simp)
  · dsimp only at hok
    cases hn : deps.CheckName output with
    | none => rfl
    | some e => simp [loop_cons_name deps obj output _ _ e hn] at hok

end Produced

/-! ## The trace of collaborator calls -/

section Trace

variable (configured : Bool) (client : Client)

theorem discipline_nil : CleanerDiscipline configured client [] := by
  refine ⟨List.chain'_nil, ?_, ?_, ?_⟩ <;> simp

theorem discipline_append (a b : List Event) (ha : CleanerDiscipline configured client a)
    (hb : CleanerDiscipline configured client b) :
    CleanerDiscipline configured client (a ++ b) := by
  obtain ⟨ha1, ha2, ha3, ha4⟩ := ha
  obtain ⟨hb1, hb2, hb3, hb4⟩ := hb
  refine ⟨?_, ?_, ?_, ?_⟩
  · refine List.chain'_append.mpr ⟨ha1, hb1, ?_⟩
    intro x hx y hy
    refine ⟨fun hc => ?_, fun hc hconf => ?_⟩
    · rw [hb2 y hy] at hc; exact absurd hc (by simp)
    · rw [ha3 x hx hconf] at hc; exact absurd hc (by simp)
  · intro ev hev
    rw [List.head?_append] at hev
    cases a with
    | nil => exact hb2 ev (by simpa using hev)
    | cons x a => exact ha2 ev (by simpa using hev)
  · intro ev hev
    rw [List.getLast?_append] at hev
    cases hbl : b.getLast? with
    | none =>
      rw [hbl] at hev
      exact ha3 ev (by simpa using hev)
    | some y =>
      rw [hbl] at hev
      have : ev = y := by simpa using hev.symm
      subst this
      exact hb3 ev (by simp [hbl])
  · rw [List.countP_append, List.countP_append, ha4, hb4]
    cases configured <;> simp

/-- A trace without create and recorder calls obeys the discipline. -/
theorem discipline_neutral (l : List Event)
    (h : ∀ ev ∈ l, ev.isCleaner = false ∧ ev.isCreated = false) :
    CleanerDiscipline configured client l := by
  induction l with
  | nil => exact discipline_nil configured client
  | cons x l ih =>
    have hx := h x (List.mem_cons_self _ _)
    have hone : CleanerDiscipline configured client [x] := by
      refine ⟨List.chain'_singleton x, ?_, ?_, ?_⟩
      · intro ev hev
        have : ev = x := by simpa using hev.symm
        rw [this]; exact hx.1
      · intro ev hev _
        have : ev = x := by simpa using hev.symm
        rw [this]; exact hx.2
      · simp [List.countP_cons, hx.1, hx.2]
    exact discipline_append configured client [x] l hone
      (ih (fun ev hev => h ev (List.mem_cons_of_mem _ hev)))

/-- A create call without error followed by the recorder call for its object. -/
theorem discipline_recorded (obj created : Unstructured) :
    CleanerDiscipline true client
      [Event.create client obj created none, Event.cleaner created client] := by
  refine ⟨List.chain'_pair.mpr ⟨fun _ => ⟨rfl, obj, created, rfl, rfl⟩,
    fun _ _ => ⟨obj, created, rfl, rfl⟩⟩, ?_, ?_, ?_⟩
  · intro ev hev
    have : ev = Event.create client obj created none := by simpa using hev.symm
    rw [this]; rfl
  · intro ev hev _
    have : ev = Event.cleaner created client := by simpa using hev.symm
    rw [this]; rfl
  · simp [List.countP_cons, Event.isCleaner, Event.isCreated]

/-- A create call without error, when no recorder is configured. -/
theorem discipline_unrecorded (obj created : Unstructured) :
    CleanerDiscipline false client [Event.create client obj created none] := by
  refine ⟨List.chain'_singleton _, ?_, ?_, ?_⟩
  · intro ev hev
    have : ev = Event.create client obj created none := by simpa using hev.symm
    rw [this]; rfl
  · intro ev _ h
    exact absurd h (by simp)
  · simp [List.countP_cons, Event.isCleaner]

end Trace

section AttemptTrace

variable (deps : Collaborators) (o : operation) (bindings : Bindings) (obj : Unstructured)

/-- The output loop only makes evaluation calls. -/
theorem loop_events (outs : List Output) (s : LoopVars) :
    ∀ ev ∈ (handleCheck.loop deps obj outs s).2, ev.isEvaluation = true := by
  induction outs generalizing s with
  | nil => simp [loop_nil]
  | cons output rest ih =>
    have hgate : ∀ ev ∈ gateEvents obj output, ev.isEvaluation = true := by
      intro ev hev
      unfold gateEvents at hev
      split at hev <;> simp at hev <;> rcases hev with rfl | rfl <;> rfl
    have hname : ∀ ev ∈ [Event.checkName output], ev.isEvaluation = true := by
      intro ev hev
      simp at hev; rw [hev]; rfl
    cases hn : deps.CheckName output with
    | some e => rw [loop_cons_name deps obj output _ s e hn]; exact hname
    | none =>
      cases hg : gateError deps obj output with
      | some e => rw [loop_cons_gate deps obj output _ s e hn hg]; exact hgate
      | none =>
        cases hs : skipped deps obj output with
        | true =>
          rw [loop_cons_skip deps obj output _ s hn hs]
          intro ev hev
          rcases List.mem_append.mp hev with h | h
          · exact hgate ev h
          · exact ih _ ev h
        | false =>
          cases hmu : deps.Mutate output.Value obj.content s.bindings with
          | error e =>
            rw [loop_cons_mutate_err deps obj output _ s e hn hg hs hmu]
            intro ev hev
            rcases List.mem_append.mp hev with h | h
            · exact hgate ev h
            · simp at h; rw [h]; rfl
          | ok v =>
            rw [loop_cons_produce deps obj output _ s v hn hg hs hmu]
            intro ev hev
            rcases List.mem_append.mp hev with h | h
            · exact hgate ev h
            · rcases List.mem_cons.mp h with h | h
              · rw [h]; rfl
              · exact ih _ ev h

/-- The calls of `handleCheck`: the expectation evaluator first, then the output loop. -/
theorem handleCheck_trace (err : Option GoError) :
    ∃ tail, (handleCheck deps o bindings obj err).2
        = Event.expectations obj (handleCheck.body deps o bindings obj err).1.bindings :: tail
      ∧ ∀ ev ∈ tail, ev.isEvaluation = true := by
  refine ⟨(handleCheck.deferred deps o obj (handleCheck.body deps o bindings obj err).1).2,
    rfl, ?_⟩
  unfold handleCheck.deferred
  split
  · simp
  · dsimp only
    split <;> exact loop_events deps obj _ _

/-- Every call of `handleCheck` is an evaluation call. -/
theorem handleCheck_events (err : Option GoError) :
    ∀ ev ∈ (handleCheck deps o bindings obj err).2, ev.isEvaluation = true := by
  obtain ⟨tail, htr, htail⟩ := handleCheck_trace deps o bindings obj err
  rw [htr]
  intro ev hev
  rcases List.mem_cons.mp hev with h | h
  · rw [h]; rfl
  · exact htail ev h

theorem evaluation_neutral (ev : Event) (h : ev.isEvaluation = true) :
    ev.isCleaner = false ∧ ev.isCreated = false ∧ ev.isCreate = false ∧ ev.isGet = false := by
  cases ev <;> simp_all [Event.isEvaluation, Event.isCleaner, Event.isCreated, Event.isCreate,
    Event.isGet]

/-- The calls of one attempt, case by case. -/
theorem tryCreateResource_trace (tick : Tick) :
    (tryCreateResource deps o bindings obj tick).2
      = match tick.Get (ObjectKey obj) with
        | none => [Event.get o.client (ObjectKey obj) none]
        | some e =>
          if IsNotFound e then
            Event.get o.client (ObjectKey obj) (some e)
              :: Event.create o.client obj (tick.Create obj).1 (tick.Create obj).2
              :: ((if (tick.Create obj).2.isNone && o.cleaner.isSome
                    then [Event.cleaner (tick.Create obj).1 o.client] else [])
                  ++ (handleCheck deps o bindings (tick.Create obj).1 (tick.Create obj).2).2)
          else [Event.get o.client (ObjectKey obj) (some e)] := by
  unfold tryCreateResource
  dsimp only
  split
  · rename_i h; simp [h]
  · rename_i e h
    simp only [h]
    split <;> simp [createResource]

/-- One attempt obeys the discipline of the cleanup recorder. -/
theorem tryCreateResource_discipline (tick : Tick) :
    CleanerDiscipline o.cleaner.isSome o.client (tryCreateResource deps o bindings obj tick).2 := by
  rw [tryCreateResource_trace]
  have hget : ∀ e, CleanerDiscipline o.cleaner.isSome o.client
      [Event.get o.client (ObjectKey obj) e] := by
    intro e
    apply discipline_neutral
    intro ev hev
    simp at hev; rw [hev]; exact ⟨rfl, rfl⟩
  have hcheck : ∀ ob er, CleanerDiscipline o.cleaner.isSome o.client
      (handleCheck deps o bindings ob er).2 := by
    intro ob er
    apply discipline_neutral
    intro ev hev
    have := evaluation_neutral ev (handleCheck_events deps o bindings ob er ev hev)
    exact ⟨this.1, this.2.1⟩
  split
  · exact hget none
  · rename_i e h
    split
    · have hsplit : ∀ (mid tail : List Event),
          Event.get o.client (ObjectKey obj) (some e)
              :: Event.create o.client obj (tick.Create obj).1 (tick.Create obj).2
              :: (mid ++ tail)
            = [Event.get o.client (ObjectKey obj) (some e)]
              ++ ((Event.create o.client obj (tick.Create obj).1 (tick.Create obj).2 :: mid)
                ++ tail) := by
        intro mid tail; simp
      rw [hsplit]
      refine discipline_append _ _ _ _ (hget _) (discipline_append _ _ _ _ ?_ (hcheck _ _))
      cases hc : (tick.Create obj).2 with
      | some e' =>
        simp only [Option.isNone_some, Bool.false_and, Bool.false_eq_true, if_false]
        apply discipline_neutral
        intro ev hev
        simp at hev; rw [hev]; exact ⟨rfl, rfl⟩
      | none =>
        cases hcl : o.cleaner.isSome with
        | true =>
          simp only [Option.isNone_none, Bool.and_self, if_true]
          exact discipline_recorded o.client obj _
        | false =>
          simp only [Option.isNone_none, Bool.and_false, Bool.false_eq_true, if_false]
          exact discipline_unrecorded o.client obj _
    · exact hget _

/-- The calls of `execute` are those of the attempts it ran, a prefix of the ticks. -/
theorem execute_trace_attempts (ctxErr : GoError) (ticks : List Tick) :
    ∃ ran rest, ticks = ran ++ rest
      ∧ (execute deps o ctxErr ticks bindings obj).2
          = (ran.map (fun u => (tryCreateResource deps o bindings obj u).2)).flatten := by
  by_cases h : ∃ t ∈ ticks, (tryCreateResource deps o bindings obj t).1.2 = none
  · obtain ⟨pre, t, post, hsplit, hpre, ht⟩ := first_ok_split deps o bindings obj ticks h
    refine ⟨pre ++ [t], post, by simp [hsplit], ?_⟩
    rw [hsplit, execute_first_ok deps o bindings obj ctxErr pre t post hpre ht]
  · refine ⟨ticks, [], by simp, ?_⟩
    rw [execute_all_fail deps o bindings obj ctxErr ticks (fun u hu hn => h ⟨u, hu, hn⟩)]

/-- The retry loop obeys the discipline of the cleanup recorder. -/
theorem execute_discipline (ctxErr : GoError) (ticks : List Tick) :
    CleanerDiscipline o.cleaner.isSome o.client (execute deps o ctxErr ticks bindings obj).2 := by
  obtain ⟨ran, rest, hsplit, htr⟩ := execute_trace_attempts deps o bindings obj ctxErr ticks
  rw [htr]
  clear htr hsplit
  induction ran with
  | nil => exact discipline_nil _ _
  | cons t ran ih =>
    rw [List.map_cons, List.flatten_cons]
    exact discipline_append _ _ _ _ (tryCreateResource_discipline deps o bindings obj t) ih

end AttemptTrace

/-! ## The claims -/

/-- C1: for an Exec call that gets past rendering and namespacing, the error is
nil exactly when some attempt returned a nil error; Exec then returns the
outputs of the first such attempt and has made the calls of the attempts up to
it and no other; when no attempt returns a nil error before the context is
cancelled, Exec returns the error of the last attempt, or the error of the
context when no attempt ran, and never a nil error. -/
theorem C1_exec_result (deps : Collaborators) (o : operation) (ctxErr : GoError)
    (ticks : List Tick) (bindings : Option Bindings) (merged obj : Unstructured)
    (hm : Exec.rendered deps o bindings = .ok merged)
    (hn : deps.ApplyNamespacer o.namespacer merged = .ok obj) :
    ((Exec deps o ctxErr ticks bindings).1.2 = none
        ↔ ∃ t ∈ ticks, (tryCreateResource deps o (bindings.getD NewBindings) obj t).1.2 = none)
    ∧ (∀ pre t post, ticks = pre ++ t :: post →
        (∀ u ∈ pre, (tryCreateResource deps o (bindings.getD NewBindings) obj u).1.2 ≠ none) →
        (tryCreateResource deps o (bindings.getD NewBindings) obj t).1.2 = none →
        Exec deps o ctxErr ticks bindings
          = (((tryCreateResource deps o (bindings.getD NewBindings) obj t).1.1, none),
              Exec.prelude o bindings merged
                ++ ((pre ++ [t]).map
                      (fun u => (tryCreateResource deps o (bindings.getD NewBindings) obj u).2)
                    ).flatten))
    ∧ ((∀ u ∈ ticks, (tryCreateResource deps o (bindings.getD NewBindings) obj u).1.2 ≠ none) →
        (Exec deps o ctxErr ticks bindings).1.2 ≠ none
        ∧ Exec deps o ctxErr ticks bindings
          = ((none, match ticks.getLast? with
                    | none => some ctxErr
                    | some t => (tryCreateResource deps o (bindings.getD NewBindings) obj t).1.2),
              Exec.prelude o bindings merged
                ++ (ticks.map
                      (fun u => (tryCreateResource deps o (bindings.getD NewBindings) obj u).2)
                    ).flatten)) := by
  rw [Exec_past deps o ctxErr ticks bindings merged obj hm hn]
  refine ⟨execute_err_none_iff deps o _ obj ctxErr ticks, ?_, ?_⟩
  · intro pre t post hsplit hpre ht
    rw [hsplit, execute_first_ok deps o _ obj ctxErr pre t post hpre ht]
  · intro hall
    refine ⟨fun h => ?_, ?_⟩
    · obtain ⟨t, htm, ht⟩ := (execute_err_none_iff deps o _ obj ctxErr ticks).mp h
      exact hall t htm ht
    · rw [execute_all_fail deps o _ obj ctxErr ticks hall]

/-- C1 at a run of three ticks: a failed query, an object already there, then an
accepted create that ends the run before the fourth tick. -/
theorem C1_exec_result_witness :
    (Exec Scenario.deps (Scenario.op []) Scenario.deadline
        [Scenario.down, Scenario.found, Scenario.accepted, Scenario.found] none).1.2 = none
    ∧ (Exec Scenario.deps (Scenario.op []) Scenario.deadline
        [Scenario.down, Scenario.found, Scenario.accepted, Scenario.found] none).2.countP
          Event.isGet = 3 :=
  ⟨(C1_exec_result Scenario.deps (Scenario.op []) Scenario.deadline
      [Scenario.down, Scenario.found, Scenario.accepted, Scenario.found] none
      Scenario.widget Scenario.widget rfl rfl).1.mpr
      ⟨Scenario.accepted, by simp, by decide⟩,
   by
    rw [(C1_exec_result Scenario.deps (Scenario.op []) Scenario.deadline
      [Scenario.down, Scenario.found, Scenario.accepted, Scenario.found] none
      Scenario.widget Scenario.widget rfl rfl).2.1
        [Scenario.down, Scenario.found] Scenario.accepted [Scenario.found] rfl
        (by intro u hu
            simp only [List.mem_cons, List.mem_singleton, List.not_mem_nil, or_false] at hu
            rcases hu with rfl | rfl <;> decide)
        (by decide)]
    decide⟩

/-- C6: an Exec call that returns a non-nil error returns nil outputs, and so
does every attempt that returns a non-nil error, whatever outputs it had
produced and bound before the error. -/
theorem C6_no_partial_success (deps : Collaborators) (o : operation) (ctxErr : GoError)
    (ticks : List Tick) (bindings : Option Bindings) :
    ((Exec deps o ctxErr ticks bindings).1.2 ≠ none
        → (Exec deps o ctxErr ticks bindings).1.1 = none)
    ∧ (∀ (b : Bindings) (obj : Unstructured) (tick : Tick),
        (tryCreateResource deps o b obj tick).1.2 ≠ none
          → (tryCreateResource deps o b obj tick).1.1 = none) := by
  refine ⟨?_, fun b obj tick h => tryCreateResource_err_outputs deps o b obj tick h⟩
  have hns : ∀ b ob, (Exec.namespaced deps o ctxErr ticks b ob).1.2 ≠ none
      → (Exec.namespaced deps o ctxErr ticks b ob).1.1 = none := by
    intro b ob
    unfold Exec.namespaced
    split
    · intro _; rfl
    · exact execute_err_outputs deps o b _ ctxErr ticks
  unfold Exec
  dsimp only
  split
  · split
    · intro _; rfl
    · exact hns _ _
  · exact hns _ _

/-- C6 at an attempt that produces and binds a first output and fails on the
second, followed by the cancellation of the context. -/
theorem C6_no_partial_success_witness :
    (Exec Scenario.deps
        (Scenario.op [⟨"a", none, .num 1⟩, ⟨"b", none, .str "$missing"⟩]) Scenario.deadline
        [Scenario.accepted] none).1.2 = some (errorsNew "variable not defined")
    ∧ (Exec Scenario.deps
        (Scenario.op [⟨"a", none, .num 1⟩, ⟨"b", none, .str "$missing"⟩]) Scenario.deadline
        [Scenario.accepted] none).1.1 = none :=
  ⟨by decide,
   (C6_no_partial_success Scenario.deps
      (Scenario.op [⟨"a", none, .num 1⟩, ⟨"b", none, .str "$missing"⟩]) Scenario.deadline
      [Scenario.accepted] none).1 (by decide)⟩

/-- Every call of an attempt is an existence query, a create call, a recorder
call or an evaluation call. -/
theorem tryCreateResource_events (deps : Collaborators) (o : operation) (bindings : Bindings)
    (obj : Unstructured) (tick : Tick) :
    ∀ ev ∈ (tryCreateResource deps o bindings obj tick).2,
      ev.isGet = true ∨ ev.isCreate = true ∨ ev.isCleaner = true ∨ ev.isEvaluation = true := by
  rw [tryCreateResource_trace]
  intro ev hev
  split at hev
  · simp at hev; rw [hev]; exact Or.inl rfl
  · split at hev
    · rcases List.mem_cons.mp hev with h | h
      · rw [h]; exact Or.inl rfl
      · rcases List.mem_cons.mp h with h | h
        · rw [h]; exact Or.inr (Or.inl rfl)
        · rcases List.mem_append.mp h with h | h
          · split at h
            · simp at h; rw [h]; exact Or.inr (Or.inr (Or.inl rfl))
            · simp at h
          · exact Or.inr (Or.inr (Or.inr (handleCheck_events deps o bindings _ _ ev h)))
    · simp at hev; rw [hev]; exact Or.inl rfl

/-- Every call of the retry loop is a call of one of its attempts. -/
theorem execute_events (deps : Collaborators) (o : operation) (ctxErr : GoError)
    (ticks : List Tick) (bindings : Bindings) (obj : Unstructured) :
    ∀ ev ∈ (execute deps o ctxErr ticks bindings obj).2,
      ∃ t ∈ ticks, ev ∈ (tryCreateResource deps o bindings obj t).2 := by
  obtain ⟨ran, rest, hsplit, htr⟩ := execute_trace_attempts deps o bindings obj ctxErr ticks
  rw [htr]
  intro ev hev
  obtain ⟨l, hl, hevl⟩ := List.mem_flatten.mp hev
  obtain ⟨t, ht, rfl⟩ := List.mem_map.mp hl
  exact ⟨t, by rw [hsplit]; exact List.mem_append_left _ ht, hevl⟩

/-- The retry loop never calls the template renderer on the base document. -/
theorem namespaced_no_merge (deps : Collaborators) (o : operation) (ctxErr : GoError)
    (ticks : List Tick) (bindings : Bindings) (obj : Unstructured) :
    ∀ ev ∈ (Exec.namespaced deps o ctxErr ticks bindings obj).2, ev.isMerge = false := by
  have hex : ∀ ob, ∀ ev ∈ (execute deps o ctxErr ticks bindings ob).2, ev.isMerge = false := by
    intro ob ev hev
    obtain ⟨t, _, ht⟩ := execute_events deps o ctxErr ticks bindings ob ev hev
    rcases tryCreateResource_events deps o bindings ob t ev ht with h | h | h | h <;>
      cases ev <;> simp_all [Event.isGet, Event.isCreate, Event.isCleaner, Event.isEvaluation,
        Event.isMerge]
  unfold Exec.namespaced
  split
  · intro ev hev
    simp at hev; rw [hev]; rfl
  · intro ev hev
    rcases List.mem_cons.mp hev with h | h
    · rw [h]; rfl
    · exact hex _ ev h

/-- C10: when the template flag is set and rendering the base document fails,
Exec returns nil outputs and that error after the renderer call alone; when
applying the namespacer fails, Exec returns nil outputs and that error after
the renderer call (if any) and the namespacer call alone, so without retry
loop, existence query, create call or cleanup recording; when the template flag
is not set, Exec continues from the namespacer with the base document itself
and never calls the renderer on it. -/
theorem C10_configuration_errors (deps : Collaborators) (o : operation) (ctxErr : GoError)
    (ticks : List Tick) (bindings : Option Bindings) :
    (∀ err, o.template = true →
        deps.Merge o.base (bindings.getD NewBindings) o.base.content = .error err →
        Exec deps o ctxErr ticks bindings
          = ((none, some err), [Event.merge o.base (bindings.getD NewBindings)]))
    ∧ (∀ merged err, Exec.rendered deps o bindings = .ok merged →
        deps.ApplyNamespacer o.namespacer merged = .error err →
        Exec deps o ctxErr ticks bindings
          = ((none, some err), Exec.prelude o bindings merged))
    ∧ (o.template = false →
        Exec deps o ctxErr ticks bindings
            = Exec.namespaced deps o ctxErr ticks (bindings.getD NewBindings) o.base
          ∧ ∀ ev ∈ (Exec deps o ctxErr ticks bindings).2, ev.isMerge = false) := by
  refine ⟨?_, ?_, ?_⟩
  · intro err ht hm
    simp [Exec, ht, hm]
  · intro merged err hm hn
    unfold Exec.rendered at hm
    unfold Exec Exec.prelude
    by_cases ht : o.template = true
    · simp only [ht, if_true] at hm ⊢
      simp [hm, Exec.namespaced, hn]
    · simp only [ht] at hm ⊢
      simp only [Bool.false_eq_true, if_false] at hm ⊢
      cases hm
      simp [Exec.namespaced, hn]
  · intro ht
    have he : Exec deps o ctxErr ticks bindings
        = Exec.namespaced deps o ctxErr ticks (bindings.getD NewBindings) o.base := by
      simp [Exec, ht]
    refine ⟨he, ?_⟩
    rw [he]
    exact namespaced_no_merge deps o ctxErr ticks _ _

/-- C10 at a failing renderer, at a failing namespacer and at an operation
without the template flag, each with a tick that would accept the create. -/
theorem C10_configuration_errors_witness :
    Exec Scenario.depsBadTemplate (Scenario.opTemplate []) Scenario.deadline
        [Scenario.accepted] none
      = ((none, some (errorsNew "template error")), [Event.merge Scenario.widget []])
    ∧ Exec Scenario.depsBadNamespacer (Scenario.op []) Scenario.deadline
        [Scenario.accepted] none
      = ((none, some (errorsNew "namespace is required")),
          [Event.applyNamespacer Scenario.widget])
    ∧ ∀ ev ∈ (Exec Scenario.depsBadTemplate (Scenario.op []) Scenario.deadline
        [Scenario.accepted] none).2, ev.isMerge = false :=
  ⟨(C10_configuration_errors Scenario.depsBadTemplate (Scenario.opTemplate [])
      Scenario.deadline [Scenario.accepted] none).1 _ rfl rfl,
   (C10_configuration_errors Scenario.depsBadNamespacer (Scenario.op [])
      Scenario.deadline [Scenario.accepted] none).2.1 Scenario.widget _ rfl rfl,
   ((C10_configuration_errors Scenario.depsBadTemplate (Scenario.op [])
      Scenario.deadline [Scenario.accepted] none).2.2 rfl).2⟩

/-- C8 fails as stated: with the object found on every attempt, an Exec call
whose context is cancelled before the first tick returns the error of the
context, and one whose namespacer fails returns the namespacer error; neither
is the already-exists error. -/
theorem C8_counterexample :
    (∀ t ∈ ([] : List Tick), t.Get (ObjectKey Scenario.widget) = none)
    ∧ (Exec Scenario.deps (Scenario.op []) Scenario.deadline [] none).1.2
        = some Scenario.deadline
    ∧ (∀ t ∈ [Scenario.found, Scenario.found], t.Get (ObjectKey Scenario.widget) = none)
    ∧ (Exec Scenario.depsBadNamespacer (Scenario.op []) Scenario.deadline
        [Scenario.found, Scenario.found] none).1.2 = some (errorsNew "namespace is required")
    ∧ Scenario.deadline ≠ errorsNew "the resource already exists in the cluster"
    ∧ errorsNew "namespace is required"
        ≠ errorsNew "the resource already exists in the cluster" := by
  refine ⟨by simp, by decide, ?_, by decide, by decide, by decide⟩
  intro t ht
  simp only [List.mem_cons, List.mem_singleton, List.not_mem_nil, or_false, or_self] at ht
  subst ht
  rfl

/-- C8, amended: for an Exec call that gets past rendering and namespacing and
finds the object on every attempt, whatever the expectations: every attempt
fails with the already-exists error after its existence query alone, every tick
before the cancellation is used for such an attempt, and Exec returns nil
outputs with the already-exists error when at least one attempt ran, with the
error of the context when none ran; the error is never nil. -/
theorem C8_already_exists (deps : Collaborators) (o : operation) (ctxErr : GoError)
    (ticks : List Tick) (bindings : Option Bindings) (merged obj : Unstructured)
    (hm : Exec.rendered deps o bindings = .ok merged)
    (hn : deps.ApplyNamespacer o.namespacer merged = .ok obj)
    (hfound : ∀ t ∈ ticks, t.Get (ObjectKey obj) = none) :
    (∀ t ∈ ticks, tryCreateResource deps o (bindings.getD NewBindings) obj t
        = ((none, some (errorsNew "the resource already exists in the cluster")),
            [Event.get o.client (ObjectKey obj) none]))
    ∧ (Exec deps o ctxErr ticks bindings).2
        = Exec.prelude o bindings merged
            ++ ticks.map (fun _ => Event.get o.client (ObjectKey obj) none)
    ∧ (Exec deps o ctxErr ticks bindings).1
        = (none, if ticks.isEmpty then some ctxErr
                 else some (errorsNew "the resource already exists in the cluster"))
    ∧ (Exec deps o ctxErr ticks bindings).1.2 ≠ none := by
  have hatt : ∀ t ∈ ticks, tryCreateResource deps o (bindings.getD NewBindings) obj t
        = ((none, some (errorsNew "the resource already exists in the cluster")),
            [Event.get o.client (ObjectKey obj) none]) := by
    intro t ht
    simp [tryCreateResource, hfound t ht]
  have hall : ∀ u ∈ ticks,
      (tryCreateResource deps o (bindings.getD NewBindings) obj u).1.2 ≠ none := by
    intro u hu
    rw [hatt u hu]; simp
  have hexec := execute_all_fail deps o (bindings.getD NewBindings) obj ctxErr ticks hall
  have htrace : (ticks.map
      (fun u => (tryCreateResource deps o (bindings.getD NewBindings) obj u).2)).flatten
        = ticks.map (fun _ => Event.get o.client (ObjectKey obj) none) := by
    clear hexec hall
    induction ticks with
    | nil => rfl
    | cons t ts ih =>
      rw [List.map_cons, List.flatten_cons, hatt t (List.mem_cons_self _ _),
        ih (fun u hu => hfound u (List.mem_cons_of_mem _ hu))
          (fun u hu => hatt u (List.mem_cons_of_mem _ hu))]
      rfl
  have hlast : (match ticks.getLast? with
      | none => some ctxErr
      | some t => (tryCreateResource deps o (bindings.getD NewBindings) obj t).1.2)
        = (if ticks.isEmpty then some ctxErr
           else some (errorsNew "the resource already exists in the cluster")) := by
    cases hl : ticks.getLast? with
    | none =>
      have : ticks = [] := List.getLast?_eq_none_iff.mp hl
      subst this; rfl
    | some t =>
      have htm := List.mem_of_getLast?_eq_some hl
      cases ticks with
      | nil => simp at htm
      | cons x xs => simp [hatt t htm]
  rw [Exec_past deps o ctxErr ticks bindings merged obj hm hn, hexec, htrace, hlast]
  refine ⟨hatt, rfl, rfl, ?_⟩
  cases ticks <;> simp

/-- C8, amended, at three attempts that each find the object. -/
theorem C8_already_exists_witness :
    (Exec Scenario.deps (Scenario.op []) Scenario.deadline
        [Scenario.found, Scenario.found, Scenario.found] none).1
      = (none, some (errorsNew "the resource already exists in the cluster")) :=
  (C8_already_exists Scenario.deps (Scenario.op []) Scenario.deadline
    [Scenario.found, Scenario.found, Scenario.found] none Scenario.widget Scenario.widget
    rfl rfl
    (by intro t ht
        simp only [List.mem_cons, List.mem_singleton, List.not_mem_nil, or_false, or_self] at ht
        subst ht
        rfl)).2.2.1

theorem body_bindings (deps : Collaborators) (o : operation) (bindings : Bindings)
    (obj : Unstructured) (err : Option GoError) :
    (handleCheck.body deps o bindings obj err).1.bindings = errorChain bindings err := by
  cases err <;> rfl

theorem body_err (deps : Collaborators) (o : operation) (bindings : Bindings)
    (obj : Unstructured) (err : Option GoError) :
    (handleCheck.body deps o bindings obj err).1._err
      = if (deps.Expectations obj (errorChain bindings err) o.expect).1
          then (deps.Expectations obj (errorChain bindings err) o.expect).2 else err := by
  cases err <;> rfl

/-- The Go results of an attempt that reaches the create call. -/
theorem tryCreateResource_created (deps : Collaborators) (o : operation) (bindings : Bindings)
    (obj : Unstructured) (tick : Tick) (nf : GoError)
    (hget : tick.Get (ObjectKey obj) = some nf) (hnf : IsNotFound nf = true) :
    (tryCreateResource deps o bindings obj tick).1
      = (handleCheck.deferred deps o (tick.Create obj).1
          (handleCheck.body deps o bindings (tick.Create obj).1 (tick.Create obj).2).1).1 := by
  simp [tryCreateResource, hget, hnf, createResource, handleCheck]

/-- Failed attempts before further ones do not change what `execute` returns. -/
theorem execute_skip_failed (deps : Collaborators) (o : operation) (ctxErr : GoError)
    (bindings : Bindings) (obj : Unstructured) (pre rest : List Tick) (hrest : rest ≠ [])
    (hpre : ∀ u ∈ pre, (tryCreateResource deps o bindings obj u).1.2 ≠ none) :
    (execute deps o ctxErr (pre ++ rest) bindings obj).1
        = (execute deps o ctxErr rest bindings obj).1
      ∧ (execute deps o ctxErr (pre ++ rest) bindings obj).2
        = (pre.map (fun u => (tryCreateResource deps o bindings obj u).2)).flatten
            ++ (execute deps o ctxErr rest bindings obj).2 := by
  induction pre with
  | nil => simp
  | cons u pre ih =>
    obtain ⟨e, he⟩ := Option.ne_none_iff_exists'.mp (hpre u (List.mem_cons_self _ _))
    have hne : pre ++ rest ≠ [] := by simp [hrest]
    have hc := execute_cons_err deps o ctxErr bindings obj u (pre ++ rest) e hne he
    have ih' := ih (fun w hw => hpre w (List.mem_cons_of_mem _ hw))
    rw [List.cons_append]
    refine ⟨hc.1.trans ih'.1, ?_⟩
    rw [hc.2, ih'.2]; simp

/-- What `handleCheck` leaves when its body returns, and what the attempt then
returns, in terms of the answer of the expectation evaluator. -/
theorem tryCreateResource_effective (deps : Collaborators) (o : operation) (bindings : Bindings)
    (obj : Unstructured) (tick : Tick) (nf : GoError) (created : Unstructured)
    (e : Option GoError) (matched : Bool) (e2 : Option GoError)
    (hget : tick.Get (ObjectKey obj) = some nf) (hnf : IsNotFound nf = true)
    (hc : tick.Create obj = (created, e))
    (hex : deps.Expectations created (errorChain bindings e) o.expect = (matched, e2)) :
    (handleCheck.body deps o bindings created e).1
        = { bindings := errorChain bindings e, _err := if matched then e2 else e }
      ∧ (tryCreateResource deps o bindings obj tick).1
        = (handleCheck.deferred deps o created
            { bindings := errorChain bindings e, _err := if matched then e2 else e }).1 := by
  have hb : (handleCheck.body deps o bindings created e).1
      = { bindings := errorChain bindings e, _err := if matched then e2 else e } := by
    have h1 := body_bindings deps o bindings created e
    have h2 := body_err deps o bindings created e
    rw [hex] at h2
    cases hbody : (handleCheck.body deps o bindings created e).1 with
    | mk b' e' =>
      rw [hbody] at h1 h2
      simp only at h1 h2
      rw [h1, h2]
  have htry := tryCreateResource_created deps o bindings obj tick nf hget hnf
  rw [hc] at htry
  simp only at htry
  rw [hb] at htry
  exact ⟨hb, htry⟩

/-- C4: in an attempt that reaches the create call with outcome e, when the
expectation evaluator returns (matched, e2) the named result of handleCheck
before the deferred output evaluation is e2 if matched is true and e if matched
is false, whatever e2 is; the attempt returns what the deferred function makes
of that result, and an effective error is returned as it is, with nil outputs. -/
theorem C4_effective_result (deps : Collaborators) (o : operation) (bindings : Bindings)
    (obj : Unstructured) (tick : Tick) (nf : GoError) (created : Unstructured)
    (e : Option GoError) (matched : Bool) (e2 : Option GoError)
    (hget : tick.Get (ObjectKey obj) = some nf) (hnf : IsNotFound nf = true)
    (hc : tick.Create obj = (created, e))
    (hex : deps.Expectations created (errorChain bindings e) o.expect = (matched, e2)) :
    (matched = true → (handleCheck.body deps o bindings created e).1._err = e2)
    ∧ (matched = false → (handleCheck.body deps o bindings created e).1._err = e)
    ∧ (tryCreateResource deps o bindings obj tick).1
        = (handleCheck.deferred deps o created
            { bindings := errorChain bindings e, _err := if matched then e2 else e }).1
    ∧ (∀ x, (if matched then e2 else e) = some x →
        (tryCreateResource deps o bindings obj tick).1 = (none, some x)) := by
  obtain ⟨hb, htry⟩ := tryCreateResource_effective deps o bindings obj tick nf created e
    matched e2 hget hnf hc hex
  refine ⟨fun h => ?_, fun h => ?_, htry, ?_⟩
  · rw [hb]; simp [h]
  · rw [hb]; simp [h]
  · intro x hx
    rw [htry, hx]
    rfl

/-- C4 at a rejected create: the evaluator of the first scenario reports no
match, so the create error stands. -/
theorem C4_effective_result_witness :
    (tryCreateResource Scenario.deps (Scenario.op [⟨"a", none, .num 1⟩]) [] Scenario.widget
        Scenario.rejected).1 = (none, some Scenario.denied) :=
  (C4_effective_result Scenario.deps (Scenario.op [⟨"a", none, .num 1⟩]) [] Scenario.widget
    Scenario.rejected Scenario.notFound Scenario.widget (some Scenario.denied) false none
    rfl rfl rfl rfl).2.2.2 Scenario.denied rfl

/-- C3 fails as stated: with an evaluator that marks every error as an
expected failure, an attempt that finds the object still fails with the
already-exists error, so Exec returns that error; and a rejected create that
is marked as expected makes Exec return a nil error together with the declared
output, not without outputs. -/
theorem C3_counterexample :
    Scenario.depsExpectFailure.Expectations Scenario.widget
        (errorChain [] (some Scenario.alreadyExists)) [] = (true, none)
    ∧ (Exec Scenario.depsExpectFailure (Scenario.op []) Scenario.deadline
        [Scenario.found] none).1.2 = some Scenario.alreadyExists
    ∧ Scenario.depsExpectFailure.Expectations Scenario.widget
        (errorChain [] (some Scenario.denied)) [] = (true, none)
    ∧ (Exec Scenario.depsExpectFailure (Scenario.op [⟨"a", none, .num 1⟩]) Scenario.deadline
        [Scenario.rejected] none).1.2 = none
    ∧ lookupOutput (Exec Scenario.depsExpectFailure (Scenario.op [⟨"a", none, .num 1⟩])
        Scenario.deadline [Scenario.rejected] none).1.1 "a" = some (.num 1) := by
  refine ⟨by decide, by decide, by decide, by decide, by decide⟩

/-- C3, amended: for an Exec call past rendering and namespacing, in an attempt
that reaches the create call, whose create call fails with e and for which the
expectation evaluator reports a match with a nil error, the effective result is
success and the attempt returns what the deferred output evaluation returns on
the chain with the error binding of e; with no declared outputs, and no earlier
attempt without error, Exec returns a nil error and nil outputs. An attempt
that finds the object, or whose existence query fails otherwise, returns its
error after the existence query alone, the expectations not being consulted. -/
theorem C3_expected_failure (deps : Collaborators) (o : operation) (ctxErr : GoError)
    (ticks : List Tick) (bindings : Option Bindings) (merged obj : Unstructured)
    (hm : Exec.rendered deps o bindings = .ok merged)
    (hn : deps.ApplyNamespacer o.namespacer merged = .ok obj) :
    (∀ pre t post nf created e, ticks = pre ++ t :: post →
        (∀ u ∈ pre, (tryCreateResource deps o (bindings.getD NewBindings) obj u).1.2 ≠ none) →
        t.Get (ObjectKey obj) = some nf → IsNotFound nf = true →
        t.Create obj = (created, some e) →
        deps.Expectations created (errorChain (bindings.getD NewBindings) (some e)) o.expect
          = (true, none) →
        (tryCreateResource deps o (bindings.getD NewBindings) obj t).1
            = (handleCheck.deferred deps o created
                { bindings := errorChain (bindings.getD NewBindings) (some e), _err := none }).1
          ∧ (o.outputs = [] → (Exec deps o ctxErr ticks bindings).1 = (none, none)))
    ∧ (∀ t, t.Get (ObjectKey obj) = none →
        tryCreateResource deps o (bindings.getD NewBindings) obj t
          = ((none, some (errorsNew "the resource already exists in the cluster")),
              [Event.get o.client (ObjectKey obj) none]))
    ∧ (∀ t e, t.Get (ObjectKey obj) = some e → IsNotFound e = false →
        tryCreateResource deps o (bindings.getD NewBindings) obj t
          = ((none, some e), [Event.get o.client (ObjectKey obj) (some e)])) := by
  refine ⟨?_, ?_, ?_⟩
  · intro pre t post nf created e hsplit hpre hget hnf hc hex
    have h4 := (tryCreateResource_effective deps o (bindings.getD NewBindings) obj t nf created
      (some e) true none hget hnf hc hex).2
    simp only [if_true] at h4
    refine ⟨h4, fun hout => ?_⟩
    have hres : (tryCreateResource deps o (bindings.getD NewBindings) obj t).1 = (none, none) := by
      rw [h4]
      simp [handleCheck.deferred, hout, loop_nil]
    have ht : (tryCreateResource deps o (bindings.getD NewBindings) obj t).1.2 = none := by
      rw [hres]
    rw [Exec_past deps o ctxErr ticks bindings merged obj hm hn, hsplit,
      execute_first_ok deps o _ obj ctxErr pre t post hpre ht]
    simp only
    rw [hres]
  · intro t hget
    simp [tryCreateResource, hget]
  · intro t e hget hnf
    simp [tryCreateResource, hget, hnf]

/-- C3, amended, at a rejected create marked as expected, with no declared outputs. -/
theorem C3_expected_failure_witness :
    (Exec Scenario.depsExpectFailure (Scenario.op []) Scenario.deadline
        [Scenario.found, Scenario.rejected] none).1 = (none, none) :=
  ((C3_expected_failure Scenario.depsExpectFailure (Scenario.op []) Scenario.deadline
      [Scenario.found, Scenario.rejected] none Scenario.widget Scenario.widget rfl rfl).1
    [Scenario.found] Scenario.rejected [] Scenario.notFound Scenario.widget Scenario.denied rfl
    (by intro u hu
        simp only [List.mem_singleton] at hu
        subst hu
        decide)
    rfl rfl rfl rfl).2 rfl

/-- C2 fails as stated: the create call of the first attempt succeeds and the
evaluation of its output fails on the malformed name, yet Exec runs a second
attempt, whose existence query finds the object, and returns the already-exists
error of that attempt. -/
theorem C2_counterexample :
    (tryCreateResource Scenario.deps (Scenario.op [⟨"", none, .num 1⟩]) [] Scenario.widget
        Scenario.accepted).1.2 = some (errorsNew "invalid name")
    ∧ (Exec Scenario.deps (Scenario.op [⟨"", none, .num 1⟩]) Scenario.deadline
        [Scenario.accepted, Scenario.found] none).1.2 = some Scenario.alreadyExists
    ∧ Scenario.alreadyExists ≠ errorsNew "invalid name"
    ∧ (Exec Scenario.deps (Scenario.op [⟨"", none, .num 1⟩]) Scenario.deadline
        [Scenario.accepted, Scenario.found] none).2.countP Event.isGet = 2 := by
  refine ⟨by decide, by decide, by decide, by decide⟩

/-- C2, amended: for an Exec call past rendering and namespacing, an attempt
whose create call succeeds and whose output evaluation then fails with a hard
error e returns nil outputs and exactly e, and is retried like any failed
attempt: when the context is cancelled before a later attempt, Exec returns nil
outputs and exactly e; when later attempts run, Exec makes their calls after
those of this attempt and returns what they decide. -/
theorem C2_output_error_retried (deps : Collaborators) (o : operation) (ctxErr : GoError)
    (bindings : Option Bindings) (merged obj : Unstructured)
    (pre : List Tick) (t : Tick) (post : List Tick) (nf : GoError) (created : Unstructured)
    (e : GoError)
    (hm : Exec.rendered deps o bindings = .ok merged)
    (hn : deps.ApplyNamespacer o.namespacer merged = .ok obj)
    (hpre : ∀ u ∈ pre, (tryCreateResource deps o (bindings.getD NewBindings) obj u).1.2 ≠ none)
    (hget : t.Get (ObjectKey obj) = some nf) (hnf : IsNotFound nf = true)
    (hc : t.Create obj = (created, none))
    (heff : (handleCheck.body deps o (bindings.getD NewBindings) created none).1._err = none)
    (hout : (handleCheck.loop deps created o.outputs
        { outputs := none, bindings := errorChain (bindings.getD NewBindings) none }).1.1
          = some e) :
    (tryCreateResource deps o (bindings.getD NewBindings) obj t).1 = (none, some e)
    ∧ (Exec deps o ctxErr (pre ++ [t]) bindings).1 = (none, some e)
    ∧ (post ≠ [] →
        (Exec deps o ctxErr (pre ++ t :: post) bindings).1
            = (execute deps o ctxErr post (bindings.getD NewBindings) obj).1
          ∧ (Exec deps o ctxErr (pre ++ t :: post) bindings).2
            = Exec.prelude o bindings merged
              ++ ((pre ++ [t]).map
                    (fun u => (tryCreateResource deps o (bindings.getD NewBindings) obj u).2)
                  ).flatten
              ++ (execute deps o ctxErr post (bindings.getD NewBindings) obj).2) := by
  have hres : (tryCreateResource deps o (bindings.getD NewBindings) obj t).1 = (none, some e) := by
    have h := tryCreateResource_created deps o (bindings.getD NewBindings) obj t nf hget hnf
    rw [hc] at h
    simp only at h
    rw [h]
    unfold handleCheck.deferred
    rw [heff]
    simp only
    rw [body_bindings, hout]
  have hfail : ∀ u ∈ pre ++ [t],
      (tryCreateResource deps o (bindings.getD NewBindings) obj u).1.2 ≠ none := by
    intro u hu
    rcases List.mem_append.mp hu with h | h
    · exact hpre u h
    · simp only [List.mem_singleton] at h
      subst h
      rw [hres]; simp
  refine ⟨hres, ?_, fun hpost => ?_⟩
  · rw [Exec_past deps o ctxErr _ bindings merged obj hm hn,
      execute_all_fail deps o _ obj ctxErr _ hfail]
    simp [hres]
  · rw [Exec_past deps o ctxErr _ bindings merged obj hm hn]
    have hsk := execute_skip_failed deps o ctxErr (bindings.getD NewBindings) obj
      (pre ++ [t]) post hpost hfail
    have happ : pre ++ t :: post = (pre ++ [t]) ++ post := by simp
    rw [happ]
    refine ⟨hsk.1, ?_⟩
    simp only
    rw [hsk.2, List.append_assoc]

/-- C2, amended, at the failing output followed by the cancellation. -/
theorem C2_output_error_retried_witness :
    (Exec Scenario.deps (Scenario.op [⟨"", none, .num 1⟩]) Scenario.deadline
        ([Scenario.found] ++ [Scenario.accepted]) none).1
      = (none, some (errorsNew "invalid name")) :=
  (C2_output_error_retried Scenario.deps (Scenario.op [⟨"", none, .num 1⟩]) Scenario.deadline
    none Scenario.widget Scenario.widget [Scenario.found] Scenario.accepted [Scenario.found]
    Scenario.notFound Scenario.widget (errorsNew "invalid name") rfl rfl
    (by intro u hu
        simp only [List.mem_singleton] at hu
        subst hu
        decide)
    rfl rfl rfl rfl rfl).2.1

/-- The Go results of `handleCheck` depend on the declared outputs only through
the Go results of the output loop. -/
theorem handleCheck_congr_outputs (deps : Collaborators) (o1 o2 : operation) (b : Bindings)
    (obj : Unstructured) (err : Option GoError) (hexp : o1.expect = o2.expect)
    (hl : ∀ s, (handleCheck.loop deps obj o1.outputs s).1
        = (handleCheck.loop deps obj o2.outputs s).1) :
    (handleCheck deps o1 b obj err).1 = (handleCheck deps o2 b obj err).1 := by
  have hb : handleCheck.body deps o1 b obj err = handleCheck.body deps o2 b obj err := by
    unfold handleCheck.body
    rw [hexp]
  unfold handleCheck
  simp only
  rw [hb]
  unfold handleCheck.deferred
  split
  · rfl
  · simp only
    rw [hl]
    split <;> rfl

/-- C9: an output whose gating match is declared and mismatches, reached with a
valid name, costs its name validation and its gating check and nothing else:
the loop goes on with the following outputs from the very variables it had, so
no entry, no binding and no error come from it; the loop over the declarations
returns the same error, outputs and chain as over the declarations without that
output, and so does handleCheck. In a loop that ends without error the name of
every output is valid, so there the mismatch alone gives the same. -/
theorem C9_gate_mismatch_skips (deps : Collaborators) (obj : Unstructured)
    (pre : List Output) (output : Output) (post : List Output) (m : Check) (d : String)
    (ds : List String)
    (hdecl : output.Match = some m) (hval : m.Value.isSome = true)
    (hmis : deps.CheckMatch obj.content m = .ok (d :: ds)) :
    (deps.CheckName output = none →
        (∀ s, handleCheck.loop deps obj (output :: post) s
            = ((handleCheck.loop deps obj post s).1,
                Event.checkName output :: Event.checkMatch obj.content m
                  :: (handleCheck.loop deps obj post s).2))
        ∧ (∀ s, (handleCheck.loop deps obj (pre ++ output :: post) s).1
            = (handleCheck.loop deps obj (pre ++ post) s).1)
        ∧ (∀ (o : operation) (b : Bindings) (err : Option GoError),
            (handleCheck deps { o with outputs := pre ++ output :: post } b obj err).1
              = (handleCheck deps { o with outputs := pre ++ post } b obj err).1))
    ∧ (∀ s, (handleCheck.loop deps obj (pre ++ output :: post) s).1.1 = none →
        (handleCheck.loop deps obj (pre ++ output :: post) s).1
          = (handleCheck.loop deps obj (pre ++ post) s).1) := by
  have hhas : hasMatch output = some m := by simp [hasMatch, hdecl, hval]
  have hskip : skipped deps obj output = true := by simp [skipped, hhas, hmis]
  have hloop : deps.CheckName output = none →
      ∀ s, (handleCheck.loop deps obj (pre ++ output :: post) s).1
        = (handleCheck.loop deps obj (pre ++ post) s).1 := by
    intro hname s
    rw [loop_append, loop_append deps obj pre post]
    split
    · rfl
    · simp only
      rw [loop_cons_skip deps obj output post _ hname hskip]
  refine ⟨fun hname => ⟨fun s => ?_, hloop hname, fun o b err => ?_⟩, fun s hok => ?_⟩
  · rw [loop_cons_skip deps obj output post s hname hskip]
    simp [gateEvents, hhas]
  · exact handleCheck_congr_outputs deps _ _ b obj err rfl (hloop hname)
  · exact hloop (loop_ok_checkName deps obj pre output post s hok) s

/-- C9 at three declared outputs, the second one gated by a mismatching match. -/
theorem C9_gate_mismatch_skips_witness :
    (handleCheck.loop Scenario.deps Scenario.widget
        ([⟨"a", none, .num 1⟩] ++ ⟨"b", some ⟨some (.num 7)⟩, .num 2⟩ :: [⟨"c", none, .str "$a"⟩])
          { outputs := none, bindings := errorChain [] none }).1
      = (handleCheck.loop Scenario.deps Scenario.widget
          ([⟨"a", none, .num 1⟩] ++ [⟨"c", none, .str "$a"⟩])
          { outputs := none, bindings := errorChain [] none }).1 :=
  ((C9_gate_mismatch_skips Scenario.deps Scenario.widget [⟨"a", none, .num 1⟩]
      ⟨"b", some ⟨some (.num 7)⟩, .num 2⟩ [⟨"c", none, .str "$a"⟩] ⟨some (.num 7)⟩ "mismatch" []
      rfl rfl rfl).1 rfl).2.1 { outputs := none, bindings := errorChain [] none }

/-- When `handleCheck` returns no error, its output loop ended without error on
the chain with the error binding, and gave the outputs returned. -/
theorem handleCheck_ok (deps : Collaborators) (o : operation) (bindings : Bindings)
    (obj : Unstructured) (err : Option GoError)
    (h : (handleCheck deps o bindings obj err).1.2 = none) :
    (handleCheck.loop deps obj o.outputs
        { outputs := none, bindings := errorChain bindings err }).1.1 = none
    ∧ (handleCheck deps o bindings obj err).1.1
        = (handleCheck.loop deps obj o.outputs
            { outputs := none, bindings := errorChain bindings err }).1.2.outputs
    ∧ (handleCheck deps o bindings obj err).2
        = Event.expectations obj (errorChain bindings err)
            :: (handleCheck.loop deps obj o.outputs
                { outputs := none, bindings := errorChain bindings err }).2 := by
  have hb := body_bindings deps o bindings obj err
  unfold handleCheck at h ⊢
  simp only at h ⊢
  unfold handleCheck.deferred at h ⊢
  split at h
  · simp at h
  · rename_i heq
    simp only [heq]
    simp only at h
    rw [hb] at h ⊢
    split at h
    · simp at h
    · rename_i hl
      simp only [hl]
      refine ⟨trivial, trivial, ?_⟩
      rw [show (handleCheck.body deps o bindings obj err).2
          = [Event.expectations obj (handleCheck.body deps o bindings obj err).1.bindings]
        from rfl, hb]
      rfl

/-- The chains the output loop renders against extend the chain it started from. -/
theorem loop_mutate_chain (deps : Collaborators) (obj : Unstructured) (outs : List Output)
    (s : LoopVars) :
    ∀ v cnt c, Event.mutate v cnt c ∈ (handleCheck.loop deps obj outs s).2 →
      ∃ ext, c = ext ++ s.bindings := by
  induction outs generalizing s with
  | nil => simp [loop_nil]
  | cons output rest ih =>
    have hgate : ∀ v cnt c, Event.mutate v cnt c ∉ gateEvents obj output := by
      intro v cnt c hev
      unfold gateEvents at hev
      split at hev <;> simp at hev
    intro v cnt c hev
    cases hn : deps.CheckName output with
    | some e =>
      rw [loop_cons_name deps obj output _ s e hn] at hev
      simp at hev
    | none =>
      cases hg : gateError deps obj output with
      | some e =>
        rw [loop_cons_gate deps obj output _ s e hn hg] at hev
        exact absurd hev (hgate v cnt c)
      | none =>
        cases hs : skipped deps obj output with
        | true =>
          rw [loop_cons_skip deps obj output _ s hn hs] at hev
          rcases List.mem_append.mp hev with h | h
          · exact absurd h (hgate v cnt c)
          · exact ih s v cnt c h
        | false =>
          cases hmu : deps.Mutate output.Value obj.content s.bindings with
          | error e =>
            rw [loop_cons_mutate_err deps obj output _ s e hn hg hs hmu] at hev
            rcases List.mem_append.mp hev with h | h
            · exact absurd h (hgate v cnt c)
            · simp only [List.mem_singleton, Event.mutate.injEq] at h
              exact ⟨[], by simp [h.2.2]⟩
          | ok w =>
            rw [loop_cons_produce deps obj output _ s w hn hg hs hmu] at hev
            rcases List.mem_append.mp hev with h | h
            · exact absurd h (hgate v cnt c)
            · rcases List.mem_cons.mp h with h | h
              · simp only [Event.mutate.injEq] at h
                exact ⟨[], by simp [h.2.2]⟩
              · obtain ⟨ext, hext⟩ := ih _ v cnt c h
                exact ⟨ext ++ [("$" ++ output.Name, NewBinding w)], by simp [hext, Register]⟩

/-- The output loop only makes calls of output evaluation. -/
theorem loop_output_calls (deps : Collaborators) (obj : Unstructured) (outs : List Output)
    (s : LoopVars) :
    ∀ ev ∈ (handleCheck.loop deps obj outs s).2, ev.isOutputCall = true := by
  induction outs generalizing s with
  | nil => simp [loop_nil]
  | cons output rest ih =>
    have hgate : ∀ ev ∈ gateEvents obj output, ev.isOutputCall = true := by
      intro ev hev
      unfold gateEvents at hev
      split at hev <;> simp at hev <;> rcases hev with rfl | rfl <;> rfl
    cases hn : deps.CheckName output with
    | some e =>
      rw [loop_cons_name deps obj output _ s e hn]
      intro ev hev
      simp at hev; rw [hev]; rfl
    | none =>
      cases hg : gateError deps obj output with
      | some e => rw [loop_cons_gate deps obj output _ s e hn hg]; exact hgate
      | none =>
        cases hs : skipped deps obj output with
        | true =>
          rw [loop_cons_skip deps obj output _ s hn hs]
          intro ev hev
          rcases List.mem_append.mp hev with h | h
          · exact hgate ev h
          · exact ih _ ev h
        | false =>
          cases hmu : deps.Mutate output.Value obj.content s.bindings with
          | error e =>
            rw [loop_cons_mutate_err deps obj output _ s e hn hg hs hmu]
            intro ev hev
            rcases List.mem_append.mp hev with h | h
            · exact hgate ev h
            · simp at h; rw [h]; rfl
          | ok v =>
            rw [loop_cons_produce deps obj output _ s v hn hg hs hmu]
            intro ev hev
            rcases List.mem_append.mp hev with h | h
            · exact hgate ev h
            · rcases List.mem_cons.mp h with h | h
              · rw [h]; rfl
              · exact ih _ ev h

/-- Every evaluation call of an attempt is made against the chain of the
caller extended by the error binding and, for a rendering, by later bindings. -/
theorem tryCreateResource_chains (deps : Collaborators) (o : operation) (bindings : Bindings)
    (obj : Unstructured) (tick : Tick) :
    ∀ ev ∈ (tryCreateResource deps o bindings obj tick).2,
      (∀ x c, ev = Event.expectations x c → ∃ e, c = errorChain bindings e)
      ∧ (∀ v cnt c, ev = Event.mutate v cnt c → ∃ ext e, c = ext ++ errorChain bindings e) := by
  have hcheck : ∀ ob er, ∀ ev ∈ (handleCheck deps o bindings ob er).2,
      (∀ x c, ev = Event.expectations x c → ∃ e, c = errorChain bindings e)
      ∧ (∀ v cnt c, ev = Event.mutate v cnt c → ∃ ext e, c = ext ++ errorChain bindings e) := by
    intro ob er ev hev
    have hb := body_bindings deps o bindings ob er
    have htr : (handleCheck deps o bindings ob er).2
        = Event.expectations ob (errorChain bindings er)
          :: (handleCheck.deferred deps o ob (handleCheck.body deps o bindings ob er).1).2 := by
      rw [← hb]; rfl
    rw [htr] at hev
    rcases List.mem_cons.mp hev with h | h
    · subst h
      refine ⟨fun x c hx => ?_, fun v cnt c hx => ?_⟩
      · simp only [Event.expectations.injEq] at hx
        exact ⟨er, hx.2.symm⟩
      · simp at hx
    · unfold handleCheck.deferred at h
      have hloop : ev ∈ (handleCheck.loop deps ob o.outputs
          { outputs := none, bindings := errorChain bindings er }).2 := by
        rw [hb] at h
        split at h
        · simp at h
        · simp only at h
          split at h <;> exact h
      refine ⟨fun x c hx => ?_, fun v cnt c hx => ?_⟩
      · subst hx
        have := loop_output_calls deps ob _ _ _ hloop
        simp [Event.isOutputCall] at this
      · subst hx
        obtain ⟨ext, hext⟩ := loop_mutate_chain deps ob _ _ v cnt c hloop
        exact ⟨ext, er, hext⟩
  rw [tryCreateResource_trace]
  intro ev hev
  split at hev
  · simp only [List.mem_singleton] at hev
    subst hev
    exact ⟨fun x c hx => by simp at hx, fun v cnt c hx => by simp at hx⟩
  · split at hev
    · rcases List.mem_cons.mp hev with h | h
      · subst h
        exact ⟨fun x c hx => by simp at hx, fun v cnt c hx => by simp at hx⟩
      · rcases List.mem_cons.mp h with h | h
        · subst h
          exact ⟨fun x c hx => by simp at hx, fun v cnt c hx => by simp at hx⟩
        · rcases List.mem_append.mp h with h | h
          · split at h
            · simp only [List.mem_singleton] at h
              subst h
              exact ⟨fun x c hx => by simp at hx, fun v cnt c hx => by simp at hx⟩
            · simp at h
          · exact hcheck _ _ ev h
    · simp only [List.mem_singleton] at hev
      subst hev
      exact ⟨fun x c hx => by simp at hx, fun v cnt c hx => by simp at hx⟩

/-- C5 fails as stated: with two outputs declared under the same name, both are
produced, the first with rendered value 1, yet the returned map binds the name
to the value 2 of the second. -/
theorem C5_counterexample :
    (Exec Scenario.deps (Scenario.op [⟨"a", none, .num 1⟩, ⟨"a", none, .num 2⟩])
        Scenario.deadline [Scenario.accepted] none).1.2 = none
    ∧ produced Scenario.deps Scenario.widget (errorChain [] none)
        [⟨"a", none, .num 1⟩, ⟨"a", none, .num 2⟩] = [("a", .num 1), ("a", .num 2)]
    ∧ Event.mutate (.num 1) Scenario.widget.content (errorChain [] none)
        ∈ (Exec Scenario.deps (Scenario.op [⟨"a", none, .num 1⟩, ⟨"a", none, .num 2⟩])
            Scenario.deadline [Scenario.accepted] none).2
    ∧ lookupOutput (Exec Scenario.deps
        (Scenario.op [⟨"a", none, .num 1⟩, ⟨"a", none, .num 2⟩])
        Scenario.deadline [Scenario.accepted] none).1.1 "a" = some (.num 2)
    ∧ lookupOutput (Exec Scenario.deps
        (Scenario.op [⟨"a", none, .num 1⟩, ⟨"a", none, .num 2⟩])
        Scenario.deadline [Scenario.accepted] none).1.1 "a" ≠ some (.num 1) := by
  refine ⟨by decide, by decide, by decide, by decide, by decide⟩

/-- C5, amended: when handleCheck returns no error, every declared output that
is not skipped is rendered against the chain of the caller extended first by
the error binding (null after a create without error, the text of the create
error otherwise) and then, in declaration order, by the rendered value of each
earlier produced output under its name prefixed by a dollar sign; the returned
map binds each name to the rendered value of the last produced output declared
under it, hence to the rendered value of a produced output that no later
declaration repeats the name of; and every attempt of the retry loop evaluates
against the chain of the caller extended this way, never against a chain left
by an earlier attempt. -/
theorem C5_outputs_in_order (deps : Collaborators) (o : operation) (bindings : Bindings) :
    (∀ (obj : Unstructured) (err : Option GoError),
      (handleCheck deps o bindings obj err).1.2 = none →
        (∀ pre out post, o.outputs = pre ++ out :: post → skipped deps obj out = false →
          ∃ v, deps.Mutate out.Value obj.content
                (chainAfter (errorChain bindings err)
                  (produced deps obj (errorChain bindings err) pre)) = .ok v
            ∧ Event.mutate out.Value obj.content
                (chainAfter (errorChain bindings err)
                  (produced deps obj (errorChain bindings err) pre))
                ∈ (handleCheck deps o bindings obj err).2
            ∧ produced deps obj (errorChain bindings err) (pre ++ [out])
                = produced deps obj (errorChain bindings err) pre ++ [(out.Name, v)]
            ∧ ((∀ p ∈ post, p.Name ≠ out.Name) →
                lookupOutput (handleCheck deps o bindings obj err).1.1 out.Name = some v))
        ∧ (∀ pre out post, o.outputs = pre ++ out :: post → skipped deps obj out = true →
            produced deps obj (errorChain bindings err) (pre ++ [out])
              = produced deps obj (errorChain bindings err) pre)
        ∧ (∀ name, lookupOutput (handleCheck deps o bindings obj err).1.1 name
            = lastProduced (produced deps obj (errorChain bindings err) o.outputs) name))
    ∧ (∀ (ctxErr : GoError) (ticks : List Tick) (obj : Unstructured),
        ∀ ev ∈ (execute deps o ctxErr ticks bindings obj).2,
          (∀ x c, ev = Event.expectations x c → ∃ e, c = errorChain bindings e)
          ∧ (∀ v cnt c, ev = Event.mutate v cnt c →
              ∃ ext e, c = ext ++ errorChain bindings e)) := by
  refine ⟨fun obj err hok => ?_, fun ctxErr ticks obj ev hev => ?_⟩
  · obtain ⟨hloop, hout, htr⟩ := handleCheck_ok deps o bindings obj err hok
    have hinit : ∀ name, lookupOutput (none : Option Outputs) name
        = lastProduced ([] : List (String × Any)) name := fun _ => rfl
    have hfinal := loop_produced deps obj (errorChain bindings err) o.outputs []
      { outputs := none, bindings := errorChain bindings err } rfl hinit hloop
    refine ⟨fun pre out post hsplit hs => ?_, fun pre out post _ hs => ?_, fun name => ?_⟩
    · rw [hsplit, loop_append] at hloop
      have hpre : (handleCheck.loop deps obj pre
          { outputs := none, bindings := errorChain bindings err }).1.1 = none := by
        cases hp : (handleCheck.loop deps obj pre
            { outputs := none, bindings := errorChain bindings err }).1.1 with
        | none => rfl
        | some e =>
          rw [hp] at hloop
          simp only at hloop
          rw [hp] at hloop
          exact absurd hloop (by simp)
      have hrest : (handleCheck.loop deps obj (out :: post)
          (handleCheck.loop deps obj pre
            { outputs := none, bindings := errorChain bindings err }).1.2).1.1 = none := by
        rw [hpre] at hloop
        exact hloop
      have hchain := (loop_produced deps obj (errorChain bindings err) pre []
        { outputs := none, bindings := errorChain bindings err } rfl hinit hpre).1
      obtain ⟨v, hv, hmem⟩ := loop_head_rendered deps obj out post _ hs hrest
      rw [hchain] at hv hmem
      have hstep : produced deps obj (errorChain bindings err) (pre ++ [out])
          = produced deps obj (errorChain bindings err) pre ++ [(out.Name, v)] := by
        rw [produced_snoc]
        unfold producedStep
        rw [hs]
        simp only [Bool.false_eq_true, if_false]
        unfold produced
        rw [hv]
      refine ⟨v, hv, ?_, hstep, fun hlast => ?_⟩
      · rw [htr, hsplit, loop_append, hpre]
        simp only
        exact List.mem_cons_of_mem _ (List.mem_append_right _ hmem)
      · rw [hout, hfinal.2, hsplit]
        have hfold : (pre ++ out :: post).foldl
            (producedStep deps obj (errorChain bindings err)) []
            = post.foldl (producedStep deps obj (errorChain bindings err))
                (produced deps obj (errorChain bindings err) (pre ++ [out])) := by
          simp [produced, List.foldl_append]
        rw [hfold, lastProduced_foldl_other deps obj _ post _ out.Name hlast, hstep,
          lastProduced_snoc]
        simp
    · rw [produced_snoc]
      simp [producedStep, hs]
    · rw [hout, hfinal.2]
      rfl
  · obtain ⟨t, _, ht⟩ := execute_events deps o ctxErr ticks bindings obj ev hev
    exact tryCreateResource_chains deps o bindings obj t ev ht

/-- C5, amended, at three outputs, the last of which refers to the first and is
declared under the name of the second. -/
theorem C5_outputs_in_order_witness :
    ∃ v, Scenario.deps.Mutate (.str "$a") Scenario.widget.content
          (chainAfter (errorChain [] none)
            (produced Scenario.deps Scenario.widget (errorChain [] none)
              [⟨"a", none, .num 1⟩, ⟨"b", none, .num 2⟩])) = .ok v
      ∧ Event.mutate (.str "$a") Scenario.widget.content
          (chainAfter (errorChain [] none)
            (produced Scenario.deps Scenario.widget (errorChain [] none)
              [⟨"a", none, .num 1⟩, ⟨"b", none, .num 2⟩]))
          ∈ (handleCheck Scenario.deps
              (Scenario.op [⟨"a", none, .num 1⟩, ⟨"b", none, .num 2⟩, ⟨"b", none, .str "$a"⟩])
              [] Scenario.widget none).2
      ∧ produced Scenario.deps Scenario.widget (errorChain [] none)
          ([⟨"a", none, .num 1⟩, ⟨"b", none, .num 2⟩] ++ [⟨"b", none, .str "$a"⟩])
          = produced Scenario.deps Scenario.widget (errorChain [] none)
              [⟨"a", none, .num 1⟩, ⟨"b", none, .num 2⟩] ++ [("b", v)]
      ∧ ((∀ p ∈ ([] : List Output), p.Name ≠ "b") →
          lookupOutput (handleCheck Scenario.deps
              (Scenario.op [⟨"a", none, .num 1⟩, ⟨"b", none, .num 2⟩, ⟨"b", none, .str "$a"⟩])
              [] Scenario.widget none).1.1 "b" = some v) :=
  ((C5_outputs_in_order Scenario.deps
      (Scenario.op [⟨"a", none, .num 1⟩, ⟨"b", none, .num 2⟩, ⟨"b", none, .str "$a"⟩]) []).1
    Scenario.widget none (by decide)).1
    [⟨"a", none, .num 1⟩, ⟨"b", none, .num 2⟩] ⟨"b", none, .str "$a"⟩ [] rfl (by decide)

/-- C7: over the calls of one Exec, the cleanup recorder is called only right
after a create call that returned no error, with the object that call left and
the client of the operation; when a recorder is configured every such create
call is followed at once by its recorder call, so the recorder calls are as many
as those create calls, and none is made when no recorder is configured. Within
an attempt the recorder call comes before the expectation and output
evaluation, which are all that follows it; an attempt that finds the object,
whose existence query fails otherwise, or whose create call fails makes no
recorder call. -/
theorem C7_cleaner_after_create (deps : Collaborators) (o : operation) (ctxErr : GoError)
    (ticks : List Tick) (bindings : Option Bindings) :
    CleanerDiscipline o.cleaner.isSome o.client (Exec deps o ctxErr ticks bindings).2
    ∧ (∀ (b : Bindings) (obj : Unstructured) (tick : Tick),
        (tick.Get (ObjectKey obj) = none →
          ∀ ev ∈ (tryCreateResource deps o b obj tick).2,
            ev.isCleaner = false ∧ ev.isCreate = false)
        ∧ (∀ e, tick.Get (ObjectKey obj) = some e → IsNotFound e = false →
          ∀ ev ∈ (tryCreateResource deps o b obj tick).2,
            ev.isCleaner = false ∧ ev.isCreate = false)
        ∧ (∀ e, (tick.Create obj).2 = some e →
          ∀ ev ∈ (tryCreateResource deps o b obj tick).2, ev.isCleaner = false)
        ∧ (o.cleaner = none →
          ∀ ev ∈ (tryCreateResource deps o b obj tick).2, ev.isCleaner = false)
        ∧ (∀ nf cl, tick.Get (ObjectKey obj) = some nf → IsNotFound nf = true →
          (tick.Create obj).2 = none → o.cleaner = some cl →
          ∃ tail, (tryCreateResource deps o b obj tick).2
              = Event.get o.client (ObjectKey obj) (some nf)
                :: Event.create o.client obj (tick.Create obj).1 none
                :: Event.cleaner (tick.Create obj).1 o.client
                :: Event.expectations (tick.Create obj).1 (errorChain b none)
                :: tail
            ∧ ∀ ev ∈ tail, ev.isOutputCall = true)) := by
  refine ⟨?_, fun b obj tick => ⟨?_, ?_, ?_, ?_, ?_⟩⟩
  · have hns : ∀ b ob, CleanerDiscipline o.cleaner.isSome o.client
        (Exec.namespaced deps o ctxErr ticks b ob).2 := by
      intro b ob
      have hone : CleanerDiscipline o.cleaner.isSome o.client [Event.applyNamespacer ob] := by
        apply discipline_neutral
        intro ev hev
        simp at hev; rw [hev]; exact ⟨rfl, rfl⟩
      unfold Exec.namespaced
      split
      · exact hone
      · exact discipline_append _ _ [Event.applyNamespacer ob] _ hone
          (execute_discipline deps o b _ ctxErr ticks)
    have hmerge : ∀ ob b, CleanerDiscipline o.cleaner.isSome o.client [Event.merge ob b] := by
      intro ob b
      apply discipline_neutral
      intro ev hev
      simp at hev; rw [hev]; exact ⟨rfl, rfl⟩
    unfold Exec
    simp only
    split
    · split
      · exact hmerge _ _
      · exact discipline_append _ _ [Event.merge _ _] _ (hmerge _ _) (hns _ _)
    · exact hns _ _
  · intro hget ev hev
    rw [tryCreateResource_trace, hget] at hev
    simp at hev; rw [hev]; exact ⟨rfl, rfl⟩
  · intro e hget hnf ev hev
    rw [tryCreateResource_trace, hget] at hev
    simp [hnf] at hev; rw [hev]; exact ⟨rfl, rfl⟩
  · intro e hc ev hev
    rw [tryCreateResource_trace] at hev
    split at hev
    · simp at hev; rw [hev]; rfl
    · split at hev
      · rw [hc] at hev
        simp only [Option.isNone_some, Bool.false_and, Bool.false_eq_true, if_false,
          List.nil_append, List.mem_cons] at hev
        rcases hev with h | h | h
        · rw [h]; rfl
        · rw [h]; rfl
        · exact (evaluation_neutral ev (handleCheck_events deps o b _ _ ev h)).1
      · simp at hev; rw [hev]; rfl
  · intro hcl ev hev
    rw [tryCreateResource_trace] at hev
    split at hev
    · simp at hev; rw [hev]; rfl
    · split at hev
      · rw [hcl] at hev
        simp only [Option.isSome_none, Bool.and_false, Bool.false_eq_true, if_false,
          List.nil_append, List.mem_cons] at hev
        rcases hev with h | h | h
        · rw [h]; rfl
        · rw [h]; rfl
        · exact (evaluation_neutral ev (handleCheck_events deps o b _ _ ev h)).1
      · simp at hev; rw [hev]; rfl
  · intro nf cl hget hnf hc hcl
    refine ⟨(handleCheck.deferred deps o (tick.Create obj).1
      (handleCheck.body deps o b (tick.Create obj).1 none).1).2, ?_, ?_⟩
    · rw [tryCreateResource_trace, hget]
      simp only [hnf, if_true, hc, hcl, Option.isNone_none, Option.isSome_some, Bool.and_self,
        List.singleton_append]
      rfl
    · unfold handleCheck.deferred
      split
      · simp
      · simp only
        split <;> exact loop_output_calls deps _ _ _

/-- C7 at an accepted create with a recorder configured and one declared output. -/
theorem C7_cleaner_after_create_witness :
    ∃ tail, (tryCreateResource Scenario.deps (Scenario.op [⟨"a", none, .num 1⟩]) []
          Scenario.widget Scenario.accepted).2
        = Event.get (Scenario.op [⟨"a", none, .num 1⟩]).client (ObjectKey Scenario.widget)
            (some Scenario.notFound)
          :: Event.create (Scenario.op [⟨"a", none, .num 1⟩]).client Scenario.widget
              (Scenario.accepted.Create Scenario.widget).1 none
          :: Event.cleaner (Scenario.accepted.Create Scenario.widget).1
              (Scenario.op [⟨"a", none, .num 1⟩]).client
          :: Event.expectations (Scenario.accepted.Create Scenario.widget).1 (errorChain [] none)
          :: tail
      ∧ ∀ ev ∈ tail, ev.isOutputCall = true :=
  ((C7_cleaner_after_create Scenario.deps (Scenario.op [⟨"a", none, .num 1⟩]) Scenario.deadline
      [Scenario.accepted] none).2 [] Scenario.widget Scenario.accepted).2.2.2.2
    Scenario.notFound { id := "cleaner" } rfl rfl rfl rfl

end Chainsaw
